import Mathlib

/-!
Verification of the food-detection video pipeline
(FoodAI/nutrition-video-analysis/terraform/docker), against its
natural-language specification.

The numeric values that the Python source holds in floats are modelled as
elements of a linear ordered field: the rationals where the source only
adds, multiplies, divides and compares (geometry, IoU matching,
calibration), and the reals where the source takes square roots or uses pi
(volume estimation, center distances).  Python dicts keyed by object id are
modelled as association lists, and in-place mutation as explicit state
passing.
-/

namespace FoodVision

/-- Axis-aligned pixel box in (x1, y1, x2, y2) format, as used throughout
pipeline.py. -/
structure Box (α : Type) where
  x1 : α
  y1 : α
  x2 : α
  y2 : α
deriving DecidableEq, Repr

/-- Intersection over union of two boxes.  Mirrors
NutritionVideoPipeline._calculate_iou (pipeline.py lines 2511-2536):
zero when the boxes do not overlap or the union area is zero, otherwise
intersection area divided by union area. -/
def calculateIoU {α : Type} [LinearOrderedField α] (box1 box2 : Box α) : α :=
  let interXMin := max box1.x1 box2.x1
  let interYMin := max box1.y1 box2.y1
  let interXMax := min box1.x2 box2.x2
  let interYMax := min box1.y2 box2.y2
  if interXMax < interXMin ∨ interYMax < interYMin then 0
  else
    let interArea := (interXMax - interXMin) * (interYMax - interYMin)
    let box1Area := (box1.x2 - box1.x1) * (box1.y2 - box1.y1)
    let box2Area := (box2.x2 - box2.x1) * (box2.y2 - box2.y1)
    let unionArea := box1Area + box2Area - interArea
    if unionArea = 0 then 0 else interArea / unionArea

/-! ### Identity Tracker: greedy IoU matching

Embedding of the greedy one-to-one matching loop of
_run_tracking_pipeline (pipeline.py lines 465-505).  Tracked objects are
an association list of persistent ids and current boxes; detections are a
list of boxes indexed by position. -/

/-- The IoU matrix rows built in pipeline.py lines 470-478: one row per
tracked object, holding the IoU of every new detection box against that
object, in detection order. -/
def buildIouMatrix {α : Type} [LinearOrderedField α]
    (trackedObjects : List (Nat × Box α)) (boxes : List (Box α)) :
    List (Nat × List α) :=
  trackedObjects.map fun e => (e.1, boxes.map fun newBox => calculateIoU newBox e.2)

/-- Inner loop of the best-pair search (pipeline.py lines 487-492): walk one
IoU row, remembering the running best state (best IoU so far, and the
(object id, detection index) achieving it).  A detection index already in
the matched set is skipped, and the best is only replaced on a strictly
larger IoU. -/
def bestInRow {α : Type} [LinearOrderedField α] (matched : List Nat)
    (objId : Nat) : Nat → List α → α × Option (Nat × Nat) → α × Option (Nat × Nat)
  | _, [], st => st
  | newIdx, iou :: rest, st =>
      bestInRow matched objId (newIdx + 1) rest
        (if newIdx ∉ matched ∧ st.1 < iou then (iou, some (objId, newIdx)) else st)

/-- Best-pair search over the whole matrix starting from a given state. -/
def findBestAux {α : Type} [LinearOrderedField α]
    (matrix : List (Nat × List α)) (matched : List Nat)
    (st : α × Option (Nat × Nat)) : α × Option (Nat × Nat) :=
  matrix.foldl (fun st e => bestInRow matched e.1 0 e.2 st) st

/-- One best-pair search of the greedy matcher (pipeline.py lines 482-492):
the best IoU starts at 0.0 with no pair selected. -/
def findBest {α : Type} [LinearOrderedField α]
    (matrix : List (Nat × List α)) (matched : List Nat) : α × Option (Nat × Nat) :=
  findBestAux matrix matched (0, none)

/-- The greedy matching loop (pipeline.py lines 481-505): while the matrix
is non-empty, find the globally best (object, detection) pair among
unmatched entries; if its IoU exceeds 0.5 commit the pair, remove the
object row and mark the detection index matched, else stop.  The fuel
argument is the row count, which bounds the number of commits. -/
def greedyMatchGo {α : Type} [LinearOrderedField α] :
    Nat → List (Nat × List α) → List Nat → List (Nat × Nat)
  | 0, _, _ => []
  | fuel + 1, matrix, matched =>
    if matrix.isEmpty then []
    else
      match findBest matrix matched with
      | (bestIou, some best) =>
          if 1 / 2 < bestIou then
            best :: greedyMatchGo fuel (matrix.filter fun e => ¬ e.1 = best.1)
              (best.2 :: matched)
          else []
      | (_, none) => []

/-- Greedy one-to-one matching of new detection boxes against tracked
objects, returning the committed (object id, detection index) pairs. -/
def greedyMatch {α : Type} [LinearOrderedField α]
    (trackedObjects : List (Nat × Box α)) (boxes : List (Box α)) : List (Nat × Nat) :=
  let matrix := buildIouMatrix trackedObjects boxes
  greedyMatchGo matrix.length matrix []

/-! ### Numeric helpers shared by calibration and statistics -/

/-- Truncation toward zero, the semantics of the Python int() cast applied
to a float. -/
def pyInt (q : ℚ) : ℤ := if 0 ≤ q then ⌊q⌋ else ⌈q⌉

/-- Clamp a Python slice endpoint to 0..n, resolving negative indices
relative to the end of the sequence, as Python slicing does. -/
def pySliceIdx (n : Nat) (i : ℤ) : Nat :=
  (min (max (if i < 0 then i + n else i) 0) (n : ℤ)).toNat

/-- Python list slicing l[a:b]. -/
def pySlice {β : Type} (l : List β) (a b : ℤ) : List β :=
  (l.take (pySliceIdx l.length b)).drop (pySliceIdx l.length a)

/-- Ascending sort, the order produced by numpy before percentile and
median interpolation. -/
def sortedAsc {α : Type} [LinearOrder α] (l : List α) : List α :=
  l.insertionSort (· ≤ ·)

/-- Median of a non-empty sample in the numpy convention: middle element
of the sorted list for odd length, average of the two middle elements for
even length. -/
def npMedianOfNonempty {α : Type} [LinearOrderedField α] (l : List α) : α :=
  let s := sortedAsc l
  if s.length % 2 = 1 then s.getD (s.length / 2) 0
  else (s.getD (s.length / 2 - 1) 0 + s.getD (s.length / 2) 0) / 2

/-- np.median, with the NaN produced on an empty sample modelled as none. -/
def npMedian {α : Type} [LinearOrderedField α] (l : List α) : Option α :=
  if l.isEmpty then none else some (npMedianOfNonempty l)

/-! ### Calibration Engine

Embedding of the reference-object calibration helper
_calibrate_from_reference_object (pipeline.py lines 2646-2700) and of the
calibration step performed inside _run_tracking_pipeline
(pipeline.py lines 625-636).  Configuration constants are the defaults of
app/config.py. -/

/-- Settings.DEFAULT_PIXELS_PER_CM (config.py line 38). -/
def DEFAULT_PIXELS_PER_CM : ℚ := 16

/-- Settings.DEFAULT_REFERENCE_PLANE_DEPTH_M (config.py line 39). -/
def DEFAULT_REFERENCE_PLANE_DEPTH_M : ℚ := 1 / 2

/-- Settings.REFERENCE_PLATE_DIAMETER_CM (config.py line 78). -/
def REFERENCE_PLATE_DIAMETER_CM : ℚ := 25

/-- Settings.REFERENCE_BOWL_DIAMETER_CM (config.py line 79). -/
def REFERENCE_BOWL_DIAMETER_CM : ℚ := 20

/-- The ref_type argument of _calibrate_from_reference_object: the strings
plate and bowl select the matching known diameter, anything else falls back
to the plate diameter. -/
inductive RefType
  | plate
  | bowl
  | other
deriving DecidableEq, Repr

/-- Known reference diameter selected in pipeline.py lines 2663-2669. -/
def refDiameterCm : RefType → ℚ
  | RefType.plate => REFERENCE_PLATE_DIAMETER_CM
  | RefType.bowl => REFERENCE_BOWL_DIAMETER_CM
  | RefType.other => REFERENCE_PLATE_DIAMETER_CM

/-- The rectangular region depth_map_meters[y1:y2, x1:x2], flattened. -/
def depthRegion (depthMap : List (List ℚ)) (y1 y2 x1 x2 : ℤ) : List ℚ :=
  ((pySlice depthMap y1 y2).map fun row => pySlice row x1 x2).flatten

/-- The is_reasonable plausibility check of pipeline.py lines 2675-2681:
aspect ratio strictly between 0.6 and 1.5, width above 50 px, and scale
strictly between 3.0 and 30.0 px/cm. -/
def refCalibIsReasonable (refBox : Box ℚ) (refType : RefType) : Prop :=
  let refWidthPx := pyInt refBox.x2 - pyInt refBox.x1
  let refHeightPx := pyInt refBox.y2 - pyInt refBox.y1
  let pixelsPerCm := (refWidthPx : ℚ) / refDiameterCm refType
  let aspectRatio := (refWidthPx : ℚ) / ((max refHeightPx 1 : ℤ) : ℚ)
  3 / 5 < aspectRatio ∧ aspectRatio < 3 / 2 ∧ 50 < refWidthPx ∧
    3 < pixelsPerCm ∧ pixelsPerCm < 30

instance (refBox : Box ℚ) (refType : RefType) :
    Decidable (refCalibIsReasonable refBox refType) := by
  unfold refCalibIsReasonable
  exact inferInstance

/-- NutritionVideoPipeline._calibrate_from_reference_object
(pipeline.py lines 2646-2700).  Returns the (pixels_per_cm, reference
depth) pair: the computed scale with the median positive depth inside the
reference box when the detection passes the plausibility check, otherwise
the configured default scale with the median positive depth in the box or
0.5 when that median is undefined.  The frame_width argument is unused by
the source as well. -/
def calibrateFromReferenceObject (refBox : Box ℚ) (depthMap : List (List ℚ))
    (frameWidth : ℚ) (refType : RefType) : ℚ × Option ℚ :=
  let x1 := pyInt refBox.x1
  let y1 := pyInt refBox.y1
  let x2 := pyInt refBox.x2
  let y2 := pyInt refBox.y2
  let refWidthPx := x2 - x1
  let pixelsPerCm := (refWidthPx : ℚ) / refDiameterCm refType
  if ¬ refCalibIsReasonable refBox refType then
    let refRegion := depthRegion depthMap y1 y2 x1 x2
    let avgDepthM := npMedian (refRegion.filter fun d => 0 < d)
    (DEFAULT_PIXELS_PER_CM,
      some (match avgDepthM with
        | some d => if 0 < d then d else 1 / 2
        | none => 1 / 2))
  else
    let refRegion := depthRegion depthMap y1 y2 x1 x2
    (pixelsPerCm, npMedian (refRegion.filter fun d => 0 < d))

/-- The run-wide calibration state dict initialised in pipeline.py
lines 62-66. -/
structure CalibrationState (α : Type) where
  pixels_per_cm : Option α
  reference_plane_depth_m : Option α
  calibrated : Bool
deriving DecidableEq, Repr

/-- The calibration step of _run_tracking_pipeline (pipeline.py
lines 625-636): when not yet calibrated, install the default scale and the
median of the positive scene depths (or the default plane depth when there
is none) and set the calibrated flag; once calibrated the state is only
read. -/
def calibrationStep (s : CalibrationState ℚ) (depthMapMeters : List (List ℚ)) :
    CalibrationState ℚ :=
  if s.calibrated then s
  else
    let sceneDepths := depthMapMeters.flatten.filter fun d => 0 < d
    { pixels_per_cm := some DEFAULT_PIXELS_PER_CM
      reference_plane_depth_m :=
        some (if 0 < sceneDepths.length then npMedianOfNonempty sceneDepths
          else DEFAULT_REFERENCE_PLANE_DEPTH_M)
      calibrated := true }

/-! ### String helpers

The label tests of the source are Python substring and lowercase
operations; they are modelled on the underlying character lists. -/

/-- Python str.lower() restricted to the ASCII case used by the labels:
every character is mapped to its lowercase form. -/
def pyLower (s : String) : String := ⟨s.data.map Char.toLower⟩

/-- Python substring membership: needle in haystack. -/
def strContains (needle haystack : String) : Prop :=
  needle.data <:+: haystack.data

instance (needle haystack : String) : Decidable (strContains needle haystack) :=
  List.decidableInfix needle.data haystack.data

/-! ### Volume Estimator

Embedding of NutritionVideoPipeline._calculate_volume_metric3d
(pipeline.py lines 2734-2889).  The mask and the depth map are consumed
only through the per-pixel pairing of mask membership with depth, so the
pair of 2-D grids is modelled as one list of (in-mask, depth-in-meters)
pixels.  Real numbers replace floats: the function takes square roots and
uses pi. -/

/-- numpy linear-interpolation percentile on a sample, as used at
q = 10, 15, 75, 90 in the height estimation. -/
noncomputable def npPercentile (q : ℝ) (l : List ℝ) : ℝ :=
  let s := sortedAsc l
  let n := s.length
  let h := ((n : ℝ) - 1) * q / 100
  let lo := (⌊h⌋).toNat
  let hi := min (lo + 1) (n - 1)
  s.getD lo 0 + (h - (lo : ℝ)) * (s.getD hi 0 - s.getD lo 0)

/-- Raw height fallback when no positive reference plane is available
(pipeline.py lines 2776-2782): depth variation between the 75th and 15th
in-mask percentiles, clamped to be non-negative, in centimeters. -/
noncomputable def rawHeightCmFallback (validDepths : List ℝ) : ℝ :=
  let baseDepthM := npPercentile 75 validDepths
  let topDepthM := npPercentile 15 validDepths
  max 0 ((baseDepthM - topDepthM) * 100)

/-- Raw height estimation (pipeline.py lines 2751-2782): with a positive
reference plane, the larger of height above the plane (plane depth minus
10th-percentile depth) and internal depth variation (90th minus 10th
percentile), clamped non-negative and converted to centimeters; otherwise
the depth-variation fallback. -/
noncomputable def rawHeightCm (validDepths : List ℝ) (refPlane : Option ℝ) : ℝ :=
  match refPlane with
  | some ref =>
      if 0 < ref then
        let objectTopDepthM := npPercentile 10 validDepths
        let objectBottomDepthM := npPercentile 90 validDepths
        max 0 (max (ref - objectTopDepthM) (objectBottomDepthM - objectTopDepthM) * 100)
      else rawHeightCmFallback validDepths
  | none => rawHeightCmFallback validDepths

/-- Keywords marking flat items (pipeline.py line 2800). -/
def flatItemWords : List String := ["fries", "chips", "crisps", "potato", "flat"]

/-- is_flat_item (pipeline.py line 2800). -/
def isFlatItem (labelLower : String) : Prop :=
  ∃ w ∈ flatItemWords, strContains w labelLower

instance (labelLower : String) : Decidable (isFlatItem labelLower) :=
  List.decidableBEx _ flatItemWords

/-- Category-aware height correction (pipeline.py lines 2802-2824):
plate and glass/cup labels get fixed plausible ranges, flat items are
capped at 5 percent of the estimated diameter inside 0.3 to 2.0 cm, and
general items at 25 percent of diameter with diameter-banded ceilings of
3, 6 or 10 cm and a floor of 1 cm. -/
noncomputable def heightCmFor (labelLower : String) (rawHeight estimatedDiameterCm : ℝ) : ℝ :=
  if strContains "plate" labelLower then
    if 5 < rawHeight then min rawHeight 2.5 else max rawHeight 1.5
  else if strContains "glass" labelLower ∨ strContains "cup" labelLower then
    if rawHeight < 3 then max rawHeight 8 else min rawHeight 15
  else if isFlatItem labelLower then
    min (max (min rawHeight (estimatedDiameterCm * 0.05)) 0.3) 2
  else
    let heightFromDiameter := estimatedDiameterCm * 0.25
    let h1 := min rawHeight heightFromDiameter
    let h2 :=
      if estimatedDiameterCm < 5 then min h1 3
      else if estimatedDiameterCm < 10 then min h1 6
      else min h1 10
    max h2 1

/-- Shape factor (pipeline.py lines 2831-2838): 0.4 for flat items, else
0.5 / 0.6 / 0.65 by estimated-diameter band. -/
noncomputable def shapeFactorFor (labelLower : String) (estimatedDiameterCm : ℝ) : ℝ :=
  if isFlatItem labelLower then 0.4
  else if estimatedDiameterCm < 5 then 0.5
  else if estimatedDiameterCm < 10 then 0.6
  else 0.65

/-- typical_max_volumes (pipeline.py lines 2852-2857), in Python dict
insertion order, which is the order the lookup scans. -/
noncomputable def typicalMaxVolumes : List (String × ℝ) :=
  [("burger", 500), ("sandwich", 500), ("cheeseburger", 500), ("hamburger", 500),
   ("fries", 200), ("french fries", 200), ("potato", 200),
   ("pizza", 1000), ("salad", 500), ("soup", 500),
   ("ice cream", 300), ("nugget", 100), ("chicken", 300)]

/-- First keyword of typical_max_volumes contained in the label
(pipeline.py lines 2860-2864). -/
noncomputable def matchedTypicalMax (labelLower : String) : Option ℝ :=
  (typicalMaxVolumes.find? fun p => decide (strContains p.1 labelLower)).map fun p => p.2

/-- Final volume cap (pipeline.py lines 2847-2879): bound the computed
volume by the diameter-based maximum, the matched category maximum when one
exists, and the absolute 1000 ml ceiling. -/
noncomputable def capVolume (labelLower : String) (estimatedDiameterCm volumeMl : ℝ) : ℝ :=
  let maxFromDiameter := estimatedDiameterCm ^ 3 * 0.5
  let maxReasonable0 :=
    match matchedTypicalMax labelLower with
    | some m => min maxFromDiameter m
    | none => maxFromDiameter
  let maxReasonable := min maxReasonable0 1000
  if maxReasonable < volumeMl then maxReasonable else volumeMl

/-- The metrics dict returned by _calculate_volume_metric3d.  The early
return paths of the source omit the diameter key, which every caller reads
back with .get(diameter_cm, 0.0); the omission is modelled as a stored 0. -/
structure VolumeMetrics where
  volume_ml : ℝ
  avg_height_cm : ℝ
  surface_area_cm2 : ℝ
  diameter_cm : ℝ

/-- NutritionVideoPipeline._calculate_volume_metric3d (pipeline.py
lines 2734-2889).  Each pixel pairs its mask membership with its depth in
meters; the box argument is unused by the source as well. -/
noncomputable def calculateVolumeMetric3d (pixels : List (Bool × ℝ)) (box : Box ℝ)
    (label : String) (calib : CalibrationState ℝ) : VolumeMetrics :=
  let depthValuesM := (pixels.filter fun p => p.1).map fun p => p.2
  if depthValuesM.length = 0 ∨ ¬ calib.calibrated then
    { volume_ml := 0, avg_height_cm := 0, surface_area_cm2 := 0, diameter_cm := 0 }
  else
    let pixelCount := (pixels.filter fun p => p.1).length
    let pixelsPerCm := calib.pixels_per_cm.getD 0
    let surfaceAreaCm2 := (pixelCount : ℝ) / pixelsPerCm ^ 2
    let validDepths := depthValuesM.filter fun d => decide (0 < d)
    if validDepths.length = 0 then
      { volume_ml := 0, avg_height_cm := 0, surface_area_cm2 := surfaceAreaCm2,
        diameter_cm := 0 }
    else
      let raw := rawHeightCm validDepths calib.reference_plane_depth_m
      let estimatedDiameterCm := 2 * Real.sqrt (surfaceAreaCm2 / Real.pi)
      let labelLower := pyLower label
      let heightCm := heightCmFor labelLower raw estimatedDiameterCm
      let shapeFactor := shapeFactorFor labelLower estimatedDiameterCm
      let volumeMl := surfaceAreaCm2 * heightCm * shapeFactor
      { volume_ml := capVolume labelLower estimatedDiameterCm volumeMl
        avg_height_cm := heightCm
        surface_area_cm2 := surfaceAreaCm2
        diameter_cm := estimatedDiameterCm }

/-- One entry of an object VolumeHistory, appended per detection event in
pipeline.py lines 656-664. -/
structure VolumeSample where
  frame : Nat
  volume_ml : ℝ
  height_cm : ℝ
  area_cm2 : ℝ
  diameter_cm : ℝ

/-- The append of pipeline.py lines 656-664: the computed metrics are
recorded unconditionally at the current detection frame, onto the end of
the per-object history. -/
def recordVolumeSample (hist : List VolumeSample) (frameIdx : Nat)
    (m : VolumeMetrics) : List VolumeSample :=
  hist ++ [{ frame := frameIdx
             volume_ml := m.volume_ml
             height_cm := m.avg_height_cm
             area_cm2 := m.surface_area_cm2
             diameter_cm := m.diameter_cm }]

/-- np.mean of a sample. -/
noncomputable def npMean (l : List ℝ) : ℝ := l.sum / (l.length : ℝ)

/-! ### Deduplication & Merge Engine

Embedding of NutritionVideoPipeline._deduplicate_tracked_objects
(pipeline.py lines 850-932).  The tracked_objects dict is an association
list in insertion order; volume_history is a second association list
mutated alongside it. -/

/-- The fields of a tracked_objects entry that the merge pass reads: the
current box and label.  The other fields (color, first/last seen frame,
gemini mass hints) ride along unchanged and do not influence the merge. -/
structure TrackedData where
  box : Box ℝ
  label : String

/-- Python str.strip(): drop whitespace from both ends. -/
def pyStrip (cs : List Char) : List Char :=
  ((cs.dropWhile fun c => c.isWhitespace).reverse.dropWhile fun c => c.isWhitespace).reverse

/-- One pass of the leading-article stripper inside normalize_label:
if the label starts with the article, drop it and strip again. -/
def stripArticle (article : List Char) (cs : List Char) : List Char :=
  if article.isPrefixOf cs then pyStrip (cs.drop article.length) else cs

/-- normalize_label of _deduplicate_tracked_objects (pipeline.py
lines 856-863): lowercase and strip, remove a leading article among
a / an / the in that order, then drop a trailing s unless the word is in
the short exception list. -/
def normalizeLabelTracked (label : String) : List Char :=
  let l0 := pyStrip (label.data.map Char.toLower)
  let l1 := stripArticle "a ".data l0
  let l2 := stripArticle "an ".data l1
  let l3 := stripArticle "the ".data l2
  if l3.getLast? = some 's' ∧
      l3 ∉ ["glass".data, "glasses".data, "fries".data, "nuggets".data] then
    l3.dropLast
  else l3

/-- Area of a box, as computed inline throughout the merge passes. -/
noncomputable def boxArea (b : Box ℝ) : ℝ := (b.x2 - b.x1) * (b.y2 - b.y1)

/-- Euclidean distance of the two box centers
(np.linalg.norm(center_i - center_j), pipeline.py lines 893-895). -/
noncomputable def centerDist (b1 b2 : Box ℝ) : ℝ :=
  Real.sqrt (((b1.x1 + b1.x2) / 2 - (b2.x1 + b2.x2) / 2) ^ 2
    + ((b1.y1 + b1.y2) / 2 - (b2.y1 + b2.y2) / 2) ^ 2)

/-- avg_size of _deduplicate_tracked_objects (pipeline.py line 896): the
mean of the four box extents. -/
noncomputable def avgSizeTracked (b1 b2 : Box ℝ) : ℝ :=
  ((b1.x2 - b1.x1) + (b1.y2 - b1.y1) + (b2.x2 - b2.x1) + (b2.y2 - b2.y1)) / 4

/-- The duplicate test of the merge pass (pipeline.py line 899):
IoU above 0.2, or centers closer than half the average box extent. -/
noncomputable def isDuplicateTracked (b1 b2 : Box ℝ) : Prop :=
  0.2 < calculateIoU b1 b2 ∨ centerDist b1 b2 < avgSizeTracked b1 b2 * 0.5

noncomputable instance (b1 b2 : Box ℝ) : Decidable (isDuplicateTracked b1 b2) :=
  Classical.propDecidable _

/-- The per-object volume history map, keyed by persistent object id. -/
abbrev Hist := List (Nat × List VolumeSample)

/-- volume_history[dst].extend(volume_history[src]) guarded by membership of
both keys (pipeline.py lines 905-906 and 912-913). -/
def histExtend (hist : Hist) (dst src : Nat) : Hist :=
  match hist.lookup dst, hist.lookup src with
  | some hd, some hs => hist.map fun e => if e.1 = dst then (dst, hd ++ hs) else e
  | _, _ => hist

/-- del volume_history[k] (pipeline.py lines 927-929). -/
def histDelete (hist : Hist) (k : Nat) : Hist :=
  hist.filter fun e => ¬ e.1 = k

/-- Inner j-loop of the merge pass (pipeline.py lines 879-915) for a fixed
outer index i.  Walks the remaining indices, skipping dropped entries and
non-matching labels; on a duplicate the smaller-area side is dropped and
its history merged into the kept side; dropping the outer entry i breaks
the loop. -/
noncomputable def dedupTrackedInner (objs : List (Nat × TrackedData))
    (d0 : Nat × TrackedData) (i : Nat) :
    List Nat → List Bool → Hist → List Bool × Hist
  | [], keep, hist => (keep, hist)
  | j :: js, keep, hist =>
    if ¬ keep.getD j false then dedupTrackedInner objs d0 i js keep hist
    else
      let oi := objs.getD i d0
      let oj := objs.getD j d0
      if normalizeLabelTracked oi.2.label ≠ normalizeLabelTracked oj.2.label then
        dedupTrackedInner objs d0 i js keep hist
      else if isDuplicateTracked oi.2.box oj.2.box then
        if boxArea oj.2.box ≤ boxArea oi.2.box then
          dedupTrackedInner objs d0 i js (keep.set j false) (histExtend hist oi.1 oj.1)
        else
          (keep.set i false, histExtend hist oj.1 oi.1)
      else dedupTrackedInner objs d0 i js keep hist

/-- Outer i-loop of the merge pass (pipeline.py lines 870-915). -/
noncomputable def dedupTrackedOuter (objs : List (Nat × TrackedData))
    (d0 : Nat × TrackedData) :
    List Nat → List Bool → Hist → List Bool × Hist
  | [], keep, hist => (keep, hist)
  | i :: is', keep, hist =>
    if ¬ keep.getD i false then dedupTrackedOuter objs d0 is' keep hist
    else
      let st := dedupTrackedInner objs d0 i
        (List.range' (i + 1) (objs.length - (i + 1))) keep hist
      dedupTrackedOuter objs d0 is' st.1 st.2

/-- NutritionVideoPipeline._deduplicate_tracked_objects (pipeline.py
lines 850-932): with at most one object the inputs are returned untouched;
otherwise run the pairwise merge pass, rebuild the object map from the
kept entries, and delete the history of every removed id. -/
noncomputable def dedupTracked (objs : List (Nat × TrackedData)) (hist : Hist) :
    List (Nat × TrackedData) × Hist :=
  if objs.length ≤ 1 then (objs, hist)
  else
    let d0 : Nat × TrackedData := (0, { box := ⟨0, 0, 0, 0⟩, label := "" })
    let st := dedupTrackedOuter objs d0 (List.range objs.length)
      (List.replicate objs.length true) hist
    let kept := (objs.enum.filter fun e => st.1.getD e.1 false).map fun e => e.2
    let removedIds := (objs.enum.filter fun e => ¬ st.1.getD e.1 false).map fun e => e.2.1
    (kept, st.2.filter fun e => ¬ removedIds.contains e.1)

/-- Strict frame-index monotonicity of a volume history, the invariant
stated by the spec for VolumeHistory. -/
def framesStrictMono (l : List VolumeSample) : Prop :=
  List.Chain' (· < ·) (l.map fun s => s.frame)

/-! ### Detection Normalizer: duplicate suppression

Embedding of NutritionVideoPipeline._deduplicate_detections
(pipeline.py lines 2003-2137).  The parallel boxes and labels arrays are
modelled as one list of (box, label) detections. -/

/-- normalize_label of _deduplicate_detections (pipeline.py
lines 2012-2023): like the tracked-object version, except the plural strip
additionally requires a length above one. -/
def normalizeLabelDet (label : String) : List Char :=
  let l0 := pyStrip (label.data.map Char.toLower)
  let l1 := stripArticle "a ".data l0
  let l2 := stripArticle "an ".data l1
  let l3 := stripArticle "the ".data l2
  if l3.getLast? = some 's' ∧ 1 < l3.length then
    if l3 ∉ ["glass".data, "glasses".data, "fries".data, "nuggets".data] then
      l3.dropLast
    else l3
  else l3

/-- labels_similar (pipeline.py lines 2050-2052): equal normalized labels
or one a substring of the other. -/
def labelsSimilar (l1 l2 : List Char) : Prop :=
  l1 = l2 ∨ l1 <:+: l2 ∨ l2 <:+: l1

instance (l1 l2 : List Char) : Decidable (labelsSimilar l1 l2) := by
  unfold labelsSimilar
  exact inferInstance

/-- max_size (pipeline.py lines 2066-2067): componentwise mean of the two
box sizes, then the larger component. -/
noncomputable def maxAvgSizeDet (b1 b2 : Box ℝ) : ℝ :=
  max (((b1.x2 - b1.x1) + (b2.x2 - b2.x1)) / 2) (((b1.y2 - b1.y1) + (b2.y2 - b2.y1)) / 2)

/-- size_ratio (pipeline.py line 2070): smaller over larger area, or 0 when
the larger area is not positive. -/
noncomputable def sizeRatio (b1 b2 : Box ℝ) : ℝ :=
  if 0 < max (boxArea b1) (boxArea b2) then
    min (boxArea b1) (boxArea b2) / max (boxArea b1) (boxArea b2)
  else 0

/-- box_contains (pipeline.py lines 2079-2082): box a contains box b. -/
noncomputable def boxContainsB (a b : Box ℝ) : Prop :=
  a.x1 ≤ b.x1 ∧ a.y1 ≤ b.y1 ∧ b.x2 ≤ a.x2 ∧ b.y2 ≤ a.y2

noncomputable instance (a b : Box ℝ) : Decidable (boxContainsB a b) :=
  Classical.propDecidable _

/-- Inner j-loop of the duplicate-suppression pass (pipeline.py
lines 2042-2104) for a fixed outer index i: the three duplicate branches
drop the smaller-area side (the larger side in the strict-containment
sub-branch); dropping entry i breaks the loop. -/
noncomputable def dedupDetInner (dets : List (Box ℝ × String))
    (d0 : Box ℝ × String) (i : Nat) :
    List Nat → List Bool → List Bool
  | [], keep => keep
  | j :: js, keep =>
    if ¬ keep.getD j false then dedupDetInner dets d0 i js keep
    else
      let di := dets.getD i d0
      let dj := dets.getD j d0
      if ¬ labelsSimilar (normalizeLabelDet di.2) (normalizeLabelDet dj.2) then
        dedupDetInner dets d0 i js keep
      else if 0.2 < calculateIoU di.1 dj.1 then
        if boxArea dj.1 ≤ boxArea di.1 then dedupDetInner dets d0 i js (keep.set j false)
        else keep.set i false
      else if centerDist di.1 dj.1 < maxAvgSizeDet di.1 dj.1 * 0.5
          ∧ 0.6 < sizeRatio di.1 dj.1 then
        if boxArea dj.1 ≤ boxArea di.1 then dedupDetInner dets d0 i js (keep.set j false)
        else keep.set i false
      else if boxContainsB di.1 dj.1 ∨ boxContainsB dj.1 di.1 then
        if boxArea dj.1 * 1.5 < boxArea di.1 then keep.set i false
        else if boxArea di.1 * 1.5 < boxArea dj.1 then
          dedupDetInner dets d0 i js (keep.set j false)
        else if boxArea dj.1 ≤ boxArea di.1 then
          dedupDetInner dets d0 i js (keep.set j false)
        else keep.set i false
      else dedupDetInner dets d0 i js keep

/-- Outer i-loop of the duplicate-suppression pass (pipeline.py
lines 2030-2104). -/
noncomputable def dedupDetOuter (dets : List (Box ℝ × String))
    (d0 : Box ℝ × String) :
    List Nat → List Bool → List Bool
  | [], keep => keep
  | i :: is', keep =>
    if ¬ keep.getD i false then dedupDetOuter dets d0 is' keep
    else dedupDetOuter dets d0 is'
      (dedupDetInner dets d0 i (List.range' (i + 1) (dets.length - (i + 1))) keep)

/-- The per-label area samples of the final pass (pipeline.py
lines 2113-2118). -/
noncomputable def labelAreasOf (dets : List (Box ℝ × String)) (label : String) : List ℝ :=
  (dets.filter fun d => d.2 = label).map fun d => boxArea d.1

/-- The oversized-box pass (pipeline.py lines 2110-2135): drop a detection
whose area exceeds three times the mean area of same-label detections,
provided at least two same-label detections exist. -/
noncomputable def oversizedPass (dets : List (Box ℝ × String)) : List (Box ℝ × String) :=
  if 0 < dets.length then
    dets.filter fun d =>
      ¬ (npMean (labelAreasOf dets d.2) * 3 < boxArea d.1
        ∧ 1 < (labelAreasOf dets d.2).length)
  else dets

/-- NutritionVideoPipeline._deduplicate_detections (pipeline.py
lines 2003-2137): the pairwise duplicate-suppression pass followed by the
oversized-box pass. -/
noncomputable def dedupDetections (dets : List (Box ℝ × String)) : List (Box ℝ × String) :=
  if dets.length = 0 then []
  else
    let d0 : Box ℝ × String := (⟨0, 0, 0, 0⟩, "")
    let keep := dedupDetOuter dets d0 (List.range dets.length)
      (List.replicate dets.length true)
    let filtered := (dets.enum.filter fun e => keep.getD e.1 false).map fun e => e.2
    oversizedPass filtered

/-! ### Nutrition Aggregator and knowledge-base lookup

Embedding of NutritionVideoPipeline._analyze_nutrition (pipeline.py
lines 3787-3857), the results compilation for objects without volume
history (pipeline.py lines 748-844), and NutritionRAG.get_nutrition_for_food
(nutrition_rag_system.py lines 384-470).  The FAISS semantic search and the
generative batch estimator are external collaborators; their answers are
oracle parameters. -/

/-- One ranked result of NutritionRAG.search as consumed by
get_nutrition_for_food: its type tag (density or calorie entry) and the
payload value (density_g_per_ml for density entries). -/
structure SearchEntry where
  isDensity : Bool
  value : ℝ
  similarity : ℝ

/-- Density resolution of get_nutrition_for_food (nutrition_rag_system.py
lines 397-410): the first density-typed match, or the 1.0 default when
there is none. -/
noncomputable def ragDensity (searchResults : List SearchEntry) : ℝ :=
  match searchResults.filter fun r => r.isDensity with
  | [] => 1
  | r :: _ => r.value

/-- The mass computation of get_nutrition_for_food
(nutrition_rag_system.py line 413): mass_g = volume_ml * density.  The
function signature has no external-mass or quantity parameter. -/
noncomputable def ragMassG (searchResults : List SearchEntry) (volumeMl : ℝ) : ℝ :=
  volumeMl * ragDensity searchResults

/-- The parameter names of NutritionRAG.get_nutrition_for_food
(nutrition_rag_system.py line 384), self excluded. -/
def getNutritionForFoodParams : List String := ["food_name", "volume_ml"]

/-- The keyword arguments _analyze_nutrition passes on every lookup
(pipeline.py line 3822). -/
def analyzeNutritionCallKwargs : List String := ["mass_g", "quantity"]

/-- Python keyword-argument acceptance: every keyword of a call must name
a parameter of the callee, else the call raises TypeError. -/
def pyCallKwargsOk (params kwargs : List String) : Prop :=
  ∀ k ∈ kwargs, k ∈ params

instance (params kwargs : List String) : Decidable (pyCallKwargsOk params kwargs) :=
  List.decidableBAll _ kwargs

/-- The per-item lookup performed by the nutrition loop (pipeline.py
line 3822) under Python call semantics against the actual
get_nutrition_for_food signature: with accepted keywords the lookup would
return the knowledge-base mass derived from volume and density; with a
keyword that is not a parameter the call raises TypeError. -/
noncomputable def analyzeNutritionItemMass (searchResults : List SearchEntry)
    (label : String) (maxVolume : ℝ) (geminiGrams : Option ℝ) (quantity : Int) :
    Except String ℝ :=
  if pyCallKwargsOk getNutritionForFoodParams analyzeNutritionCallKwargs then
    Except.ok (ragMassG searchResults maxVolume)
  else
    Except.error "TypeError: get_nutrition_for_food() got an unexpected keyword argument"

/-- The tracked_objects fields read by the results compilation for an
object without volume history (pipeline.py lines 751-768). -/
structure TrackedFull where
  box : Box ℝ
  label : String
  gemini_grams : Option ℝ
  gemini_quantity : Option Int

/-- The statistics entry produced for an object with no volume history
(pipeline.py lines 813-844). -/
structure EstimatedEntry where
  obj_id : Nat
  label : String
  max_volume_ml : ℝ
  median_volume_ml : ℝ
  mean_volume_ml : ℝ
  max_height_cm : ℝ
  max_area_cm2 : ℝ
  num_frames : Nat
  estimated : Bool
  quantity : Int

/-- The estimated-volume entry built for one object with no volume history
(pipeline.py lines 750-768 and 813-844): the visible area comes from the
box under the calibrated scale, the volume from the external batch
estimate when one exists and otherwise the deterministic area * 2.0
fallback, and the entry carries the estimated flag. -/
noncomputable def untrackedResultEntry (estimatedVolumes : Nat → Option ℝ)
    (pixelsPerCm : ℝ) (objId : Nat) (obj : TrackedFull) : EstimatedEntry :=
  let areaCm2 := boxArea obj.box / pixelsPerCm ^ 2
  let estVol := (estimatedVolumes objId).getD (areaCm2 * 2)
  { obj_id := objId
    label := obj.label
    max_volume_ml := estVol
    median_volume_ml := estVol
    mean_volume_ml := estVol
    max_height_cm := 2
    max_area_cm2 := areaCm2
    num_frames := 1
    estimated := true
    quantity :=
      match obj.gemini_quantity with
      | some q => if 1 ≤ q then q else 1
      | none => 1 }

/-- The untracked portion of the results compilation (pipeline.py
lines 748-768 and 813-844): every tracked object whose id has no volume
history receives an estimated entry in the results. -/
noncomputable def compileUntracked (estimatedVolumes : Nat → Option ℝ)
    (pixelsPerCm : ℝ) (tracked : List (Nat × TrackedFull))
    (objectsWithVolume : List Nat) : List EstimatedEntry :=
  (tracked.filter fun e => decide (e.1 ∉ objectsWithVolume)).map fun e =>
    untrackedResultEntry estimatedVolumes pixelsPerCm e.1 e.2

/-- skip_keywords of _analyze_nutrition (pipeline.py lines 3797-3802). -/
def skipKeywords : List String :=
  ["plate", "platter", "fork", "knife", "spoon", "glass", "cup", "mug", "bottle",
   "table", "bowl", "water", "sprinkle", "surface", "wooden", "board", "cutting board",
   "background", "setting", "scene", "some other", "other objects", "object",
   "container", "napkin", "tissue", "placemat", "mat"]

/-- The non-food test of the nutrition loop (pipeline.py line 3814). -/
def skipMatch (label : String) : Prop :=
  ∃ k ∈ skipKeywords, strContains k (pyLower label)

instance (label : String) : Decidable (skipMatch label) :=
  List.decidableBEx _ skipKeywords

/-- The entries the nutrition loop attempts to resolve against the
knowledge base: those whose label matches no skip keyword (pipeline.py
lines 3809-3815). -/
def nutritionCandidates (entries : List EstimatedEntry) : List EstimatedEntry :=
  entries.filter fun e => decide (¬ skipMatch e.label)

end FoodVision

namespace FoodVision

/-! ## Theorems -/

theorem bestInRow_fst_le {α : Type} [LinearOrderedField α] (matched : List Nat)
    (objId : Nat) (j : Nat) (row : List α) (st : α × Option (Nat × Nat)) :
    st.1 ≤ (bestInRow matched objId j row st).1 := by
  induction row generalizing j st with
  | nil => simp [bestInRow]
  | cons x rest ih =>
    simp only [bestInRow]
    refine le_trans ?_ (ih (j + 1) _)
    split
    · next h => exact h.2.le
    · exact le_refl _

theorem bestInRow_le {α : Type} [LinearOrderedField α] (matched : List Nat)
    (objId : Nat) (row : List α) :
    ∀ (j i : Nat) (h : i < row.length) (st : α × Option (Nat × Nat)),
      (j + i) ∉ matched →
      row.get ⟨i, h⟩ ≤ (bestInRow matched objId j row st).1 := by
  induction row with
  | nil => intro j i h; simp at h
  | cons x rest ih =>
    intro j i h st hnm
    cases i with
    | zero =>
      show x ≤ _
      simp only [bestInRow]
      refine le_trans ?_ (bestInRow_fst_le matched objId (j + 1) rest _)
      by_cases hc : j ∉ matched ∧ st.1 < x
      · rw [if_pos hc]
      · rw [if_neg hc]
        rw [Nat.add_zero] at hnm
        rcases not_and_or.mp hc with hc1 | hc2
        · exact absurd hnm hc1
        · exact le_of_not_lt hc2
    | succ m =>
      show rest.get ⟨m, _⟩ ≤ _
      simp only [bestInRow]
      refine ih (j + 1) m _ _ ?_
      have : j + 1 + m = j + (m + 1) := by omega
      rw [this]
      exact hnm

theorem bestInRow_spec {α : Type} [LinearOrderedField α] (matched : List Nat)
    (objId : Nat) (row : List α) :
    ∀ (j : Nat) (st : α × Option (Nat × Nat)),
      bestInRow matched objId j row st = st ∨
      ∃ (i : Nat) (h : i < row.length),
        bestInRow matched objId j row st = (row.get ⟨i, h⟩, some (objId, j + i)) ∧
        (j + i) ∉ matched := by
  induction row with
  | nil => intro j st; left; rfl
  | cons x rest ih =>
    intro j st
    by_cases hc : j ∉ matched ∧ st.1 < x
    · have hrw : bestInRow matched objId j (x :: rest) st
          = bestInRow matched objId (j + 1) rest (x, some (objId, j)) := by
        simp only [bestInRow, if_pos hc]
      rcases ih (j + 1) (x, some (objId, j)) with heq | ⟨i, h, heq, hnm⟩
      · right
        refine ⟨0, by simp, ?_, by simpa using hc.1⟩
        rw [hrw, heq]
        simp
      · right
        refine ⟨i + 1, by simpa using h, ?_, ?_⟩
        · rw [hrw, heq]
          have : j + 1 + i = j + (i + 1) := by omega
          rw [this]
          rfl
        · have : j + 1 + i = j + (i + 1) := by omega
          rw [this] at hnm
          exact hnm
    · have hrw : bestInRow matched objId j (x :: rest) st
          = bestInRow matched objId (j + 1) rest st := by
        simp only [bestInRow, if_neg hc]
      rcases ih (j + 1) st with heq | ⟨i, h, heq, hnm⟩
      · left; rw [hrw, heq]
      · right
        refine ⟨i + 1, by simpa using h, ?_, ?_⟩
        · rw [hrw, heq]
          have : j + 1 + i = j + (i + 1) := by omega
          rw [this]
          rfl
        · have : j + 1 + i = j + (i + 1) := by omega
          rw [this] at hnm
          exact hnm

theorem findBestAux_fst_le {α : Type} [LinearOrderedField α]
    (matrix : List (Nat × List α)) (matched : List Nat) :
    ∀ st : α × Option (Nat × Nat), st.1 ≤ (findBestAux matrix matched st).1 := by
  induction matrix with
  | nil => intro st; exact le_refl _
  | cons e rest ih =>
    intro st
    show st.1 ≤ (findBestAux rest matched (bestInRow matched e.1 0 e.2 st)).1
    exact le_trans (bestInRow_fst_le matched e.1 0 e.2 st) (ih _)

theorem findBestAux_le {α : Type} [LinearOrderedField α]
    (matrix : List (Nat × List α)) (matched : List Nat) :
    ∀ (k : Nat) (hk : k < matrix.length) (i : Nat)
      (hi : i < (matrix.get ⟨k, hk⟩).2.length) (st : α × Option (Nat × Nat)),
      i ∉ matched →
      (matrix.get ⟨k, hk⟩).2.get ⟨i, hi⟩ ≤ (findBestAux matrix matched st).1 := by
  induction matrix with
  | nil => intro k hk; simp at hk
  | cons e rest ih =>
    intro k hk i hi st hnm
    cases k with
    | zero =>
      show (e.2.get ⟨i, _⟩ : α) ≤ (findBestAux rest matched (bestInRow matched e.1 0 e.2 st)).1
      refine le_trans ?_ (findBestAux_fst_le rest matched _)
      exact bestInRow_le matched e.1 e.2 0 i hi st (by simpa using hnm)
    | succ m =>
      exact ih m (by simpa using hk) i hi _ hnm

theorem findBestAux_spec {α : Type} [LinearOrderedField α]
    (matrix : List (Nat × List α)) (matched : List Nat) :
    ∀ st : α × Option (Nat × Nat),
      findBestAux matrix matched st = st ∨
      ∃ (k : Nat) (hk : k < matrix.length) (i : Nat)
        (hi : i < (matrix.get ⟨k, hk⟩).2.length),
        findBestAux matrix matched st
          = ((matrix.get ⟨k, hk⟩).2.get ⟨i, hi⟩, some ((matrix.get ⟨k, hk⟩).1, i)) ∧
        i ∉ matched := by
  induction matrix with
  | nil => intro st; left; rfl
  | cons e rest ih =>
    intro st
    have hrw : findBestAux (e :: rest) matched st
        = findBestAux rest matched (bestInRow matched e.1 0 e.2 st) := rfl
    rcases ih (bestInRow matched e.1 0 e.2 st) with heq | ⟨k, hk, i, hi, heq, hnm⟩
    · rcases bestInRow_spec matched e.1 e.2 0 st with heq2 | ⟨i, h, heq2, hnm⟩
      · left; rw [hrw, heq, heq2]
      · right
        refine ⟨0, by simp, i, by simpa using h, ?_, by simpa using hnm⟩
        rw [hrw, heq, heq2]
        simp
    · right
      exact ⟨k + 1, by simpa using hk, i, hi, by rw [hrw, heq]; rfl, hnm⟩

/-- Claim C2: the Identity Tracker matching is greedy one-to-one on the
global IoU maximum.  For any tracked-object list and detection batch in any
enumeration order, if one (object, detection) pair has the strictly unique
maximum IoU and that IoU exceeds 0.5, that pair is committed by the
matcher. -/
theorem greedyMatch_first_commit {α : Type} [LinearOrderedField α]
    (trackedObjects : List (Nat × Box α)) (boxes : List (Box α))
    (k i : Nat) (hk : k < trackedObjects.length) (hi : i < boxes.length)
    (hgt : 1 / 2 < calculateIoU (boxes.get ⟨i, hi⟩) (trackedObjects.get ⟨k, hk⟩).2)
    (hmax : ∀ (p q : Nat) (hp : p < trackedObjects.length) (hq : q < boxes.length),
      ¬(p = k ∧ q = i) →
      calculateIoU (boxes.get ⟨q, hq⟩) (trackedObjects.get ⟨p, hp⟩).2 <
        calculateIoU (boxes.get ⟨i, hi⟩) (trackedObjects.get ⟨k, hk⟩).2) :
    ((trackedObjects.get ⟨k, hk⟩).1, i) ∈ greedyMatch trackedObjects boxes := by
  classical
  set v := calculateIoU (boxes.get ⟨i, hi⟩) (trackedObjects.get ⟨k, hk⟩).2 with hv
  set matrix := buildIouMatrix trackedObjects boxes with hmatrix
  have hlen : matrix.length = trackedObjects.length := by
    simp [hmatrix, buildIouMatrix]
  have hrowlen : ∀ (p : Nat) (hp : p < matrix.length),
      (matrix.get ⟨p, hp⟩).2.length = boxes.length := by
    intro p hp
    simp [hmatrix, buildIouMatrix]
  have hrowget : ∀ (p : Nat) (hp : p < matrix.length) (q : Nat)
      (hq : q < (matrix.get ⟨p, hp⟩).2.length),
      (matrix.get ⟨p, hp⟩).2.get ⟨q, hq⟩
        = calculateIoU (boxes.get ⟨q, by rw [← hrowlen p hp]; exact hq⟩)
            (trackedObjects.get ⟨p, by rw [← hlen]; exact hp⟩).2 := by
    intro p hp q hq
    simp [hmatrix, buildIouMatrix]
  have hidget : ∀ (p : Nat) (hp : p < matrix.length),
      (matrix.get ⟨p, hp⟩).1 = (trackedObjects.get ⟨p, by rw [← hlen]; exact hp⟩).1 := by
    intro p hp
    simp [hmatrix, buildIouMatrix]
  have hk' : k < matrix.length := by rw [hlen]; exact hk
  have hi' : i < (matrix.get ⟨k, hk'⟩).2.length := by rw [hrowlen k hk']; exact hi
  have hvk : (matrix.get ⟨k, hk'⟩).2.get ⟨i, hi'⟩ = v := by
    rw [hrowget k hk' i hi']
  -- the best-pair search finds exactly (k, i)
  have hle : v ≤ (findBest matrix []).1 := by
    have := findBestAux_le matrix [] k hk' i hi' (0, none) (by simp)
    rw [hvk] at this
    exact this
  have hpos : (0 : α) < v := lt_trans (by norm_num) hgt
  have hfb : findBest matrix [] = (v, some ((trackedObjects.get ⟨k, hk⟩).1, i)) := by
    rcases findBestAux_spec matrix [] (0, none) with heq | ⟨p, hp, q, hq, heq, _⟩
    · exfalso
      have : (findBest matrix []).1 = 0 := by rw [findBest, heq]
      rw [this] at hle
      exact absurd hle (not_le.mpr hpos)
    · have heq' : findBest matrix [] = _ := heq
      by_cases hpq : p = k ∧ q = i
      · obtain ⟨h1, h2⟩ := hpq
        subst h1
        subst h2
        rw [heq']
        have e1 : (matrix.get ⟨p, hp⟩).2.get ⟨q, hq⟩ = v := hvk
        have e2 : (matrix.get ⟨p, hp⟩).1 = (trackedObjects.get ⟨p, hk⟩).1 := hidget p hp
        rw [e1, e2]
      · exfalso
        have hlt : (matrix.get ⟨p, hp⟩).2.get ⟨q, hq⟩ < v := by
          rw [hrowget p hp q hq]
          exact hmax p q _ _ hpq
        have : (findBest matrix []).1 = (matrix.get ⟨p, hp⟩).2.get ⟨q, hq⟩ := by
          rw [heq']
        rw [this] at hle
        exact absurd (lt_of_le_of_lt hle hlt) (lt_irrefl v)
  -- the first loop iteration commits (k, i)
  have hne : matrix.length ≠ 0 := by
    rw [hlen]
    omega
  rcases Nat.exists_eq_succ_of_ne_zero hne with ⟨m, hm⟩
  have hmem : matrix.isEmpty = false := by
    simp only [List.isEmpty_eq_false]
    exact fun hh => hne (by simp [hh])
  have hstep : greedyMatchGo (m + 1) matrix []
      = ((trackedObjects.get ⟨k, hk⟩).1, i)
          :: greedyMatchGo m
            (matrix.filter fun e => ¬ e.1 = (trackedObjects.get ⟨k, hk⟩).1)
            [i] := by
    simp only [greedyMatchGo, hmem, Bool.false_eq_true, if_false]
    rw [hfb]
    show (if 1 / 2 < v then _ else []) = _
    rw [if_pos hgt]
  show _ ∈ greedyMatchGo matrix.length matrix []
  rw [hm, hstep]
  exact List.mem_cons_self _ _

theorem greedyMatch_first_commit_witness :
    ((1 : Nat), (0 : Nat)) ∈ greedyMatch
      [((1 : Nat), (⟨0, 0, 10, 10⟩ : Box ℚ)), (2, ⟨100, 100, 110, 110⟩)]
      [(⟨0, 0, 10, 9⟩ : Box ℚ), ⟨100, 100, 110, 105⟩] := by
  have h := greedyMatch_first_commit
    [((1 : Nat), (⟨0, 0, 10, 10⟩ : Box ℚ)), (2, ⟨100, 100, 110, 110⟩)]
    [(⟨0, 0, 10, 9⟩ : Box ℚ), ⟨100, 100, 110, 105⟩]
    0 0 (by norm_num) (by norm_num)
    (by
      show (1 : ℚ) / 2 < calculateIoU ⟨0, 0, 10, 9⟩ ⟨0, 0, 10, 10⟩
      norm_num [calculateIoU])
    (by
      intro p q hp hq hne
      have hp2 : p < 2 := by simpa using hp
      have hq2 : q < 2 := by simpa using hq
      interval_cases p <;> interval_cases q
      · exact absurd ⟨rfl, rfl⟩ hne
      · show calculateIoU (⟨100, 100, 110, 105⟩ : Box ℚ) ⟨0, 0, 10, 10⟩
            < calculateIoU (⟨0, 0, 10, 9⟩ : Box ℚ) ⟨0, 0, 10, 10⟩
        norm_num [calculateIoU]
      · show calculateIoU (⟨0, 0, 10, 9⟩ : Box ℚ) ⟨100, 100, 110, 110⟩
            < calculateIoU (⟨0, 0, 10, 9⟩ : Box ℚ) ⟨0, 0, 10, 10⟩
        norm_num [calculateIoU]
      · show calculateIoU (⟨100, 100, 110, 105⟩ : Box ℚ) ⟨100, 100, 110, 110⟩
            < calculateIoU (⟨0, 0, 10, 9⟩ : Box ℚ) ⟨0, 0, 10, 10⟩
        norm_num [calculateIoU])
  exact h

end FoodVision

namespace FoodVision

theorem refCalib_reasonable_200_210 :
    refCalibIsReasonable ⟨0, 0, 200, 210⟩ RefType.plate := by
  unfold refCalibIsReasonable
  norm_num [pyInt, refDiameterCm, REFERENCE_PLATE_DIAMETER_CM]

/-- Claim C6: reference-object calibration computes
pixels_per_cm = box_width_px / known_reference_diameter_cm and accepts
exactly under the plausibility check.  A 200 x 210 px plate box with the
25 cm known diameter yields 8.0 px/cm and passes the check, and any box
whose aspect ratio is 3.0 fails the check and falls through to the
default 16 px/cm scale. -/
theorem referenceCalibration_spec :
    (∀ (depthMap : List (List ℚ)) (frameWidth : ℚ),
      refCalibIsReasonable ⟨0, 0, 200, 210⟩ RefType.plate ∧
      calibrateFromReferenceObject ⟨0, 0, 200, 210⟩ depthMap frameWidth RefType.plate
        = (8, npMedian ((depthRegion depthMap 0 210 0 200).filter fun d => 0 < d))) ∧
    (∀ (refBox : Box ℚ) (depthMap : List (List ℚ)) (frameWidth : ℚ) (refType : RefType),
      ((pyInt refBox.x2 - pyInt refBox.x1 : ℤ) : ℚ)
          = 3 * ((max (pyInt refBox.y2 - pyInt refBox.y1) 1 : ℤ) : ℚ) →
      ¬ refCalibIsReasonable refBox refType ∧
      (calibrateFromReferenceObject refBox depthMap frameWidth refType).1
        = DEFAULT_PIXELS_PER_CM) := by
  constructor
  · intro depthMap frameWidth
    refine ⟨refCalib_reasonable_200_210, ?_⟩
    unfold calibrateFromReferenceObject
    rw [if_neg (not_not_intro refCalib_reasonable_200_210)]
    norm_num [pyInt, refDiameterCm, REFERENCE_PLATE_DIAMETER_CM]
  · intro refBox depthMap frameWidth refType haspect
    have hdenom : (0 : ℚ) < ((max (pyInt refBox.y2 - pyInt refBox.y1) 1 : ℤ) : ℚ) := by
      have : (1 : ℤ) ≤ max (pyInt refBox.y2 - pyInt refBox.y1) 1 := le_max_right _ _
      exact_mod_cast lt_of_lt_of_le Int.zero_lt_one this
    have hnr : ¬ refCalibIsReasonable refBox refType := by
      unfold refCalibIsReasonable
      intro hr
      have h2 := hr.2.1
      rw [haspect, mul_div_assoc, div_self (ne_of_gt hdenom)] at h2
      norm_num at h2
    refine ⟨hnr, ?_⟩
    unfold calibrateFromReferenceObject
    rw [if_pos hnr]

theorem referenceCalibration_spec_witness :
    ((pyInt (3 : ℚ) - pyInt 0 : ℤ) : ℚ) = 3 * ((max (pyInt (1 : ℚ) - pyInt 0) 1 : ℤ) : ℚ) ∧
    ¬ refCalibIsReasonable ⟨0, 0, 3, 1⟩ RefType.plate ∧
    (calibrateFromReferenceObject ⟨0, 0, 3, 1⟩ [[1]] 800 RefType.plate).1
      = DEFAULT_PIXELS_PER_CM := by
  have h3 : ((pyInt (3 : ℚ) - pyInt 0 : ℤ) : ℚ)
      = 3 * ((max (pyInt (1 : ℚ) - pyInt 0) 1 : ℤ) : ℚ) := by
    norm_num [pyInt]
  have h := (referenceCalibration_spec.2 ⟨0, 0, 3, 1⟩ [[1]] 800 RefType.plate) h3
  exact ⟨h3, h.1, h.2⟩

/-- Claim C7: the Calibration Engine is idempotent.  Once the calibrated
flag is set, the calibration step of the tracking pipeline returns its
state unchanged, so pixels_per_cm and reference_plane_depth_m never change
after the first calibration; composing two steps equals one step. -/
theorem calibrationStep_idempotent :
    (∀ (s : CalibrationState ℚ) (d : List (List ℚ)),
      s.calibrated = true → calibrationStep s d = s) ∧
    (∀ (s : CalibrationState ℚ) (d d' : List (List ℚ)),
      calibrationStep (calibrationStep s d) d' = calibrationStep s d) := by
  have hfix : ∀ (s : CalibrationState ℚ) (d : List (List ℚ)),
      s.calibrated = true → calibrationStep s d = s := by
    intro s d hs
    unfold calibrationStep
    rw [if_pos hs]
  refine ⟨hfix, ?_⟩
  intro s d d'
  by_cases hs : s.calibrated = true
  · rw [hfix s d hs, hfix s d' hs]
  · have hcal : (calibrationStep s d).calibrated = true := by
      unfold calibrationStep
      rw [if_neg hs]
    exact hfix _ d' hcal

theorem calibrationStep_idempotent_witness :
    ({ pixels_per_cm := some 8, reference_plane_depth_m := some 1,
        calibrated := true } : CalibrationState ℚ).calibrated = true ∧
    calibrationStep
      { pixels_per_cm := some 8, reference_plane_depth_m := some 1, calibrated := true }
      [[1]]
      = { pixels_per_cm := some 8, reference_plane_depth_m := some 1, calibrated := true } :=
  ⟨rfl, calibrationStep_idempotent.1
    { pixels_per_cm := some 8, reference_plane_depth_m := some 1, calibrated := true }
    [[1]] rfl⟩

end FoodVision

namespace FoodVision

theorem getD_replicate {α : Type} (n i : Nat) (a d : α) (h : i < n) :
    (List.replicate n a).getD i d = a := by
  induction n generalizing i with
  | zero => omega
  | succ m ih =>
    cases i with
    | zero => rfl
    | succ j =>
      show (List.replicate m a).getD j d = a
      exact ih j (by omega)

theorem sorted_replicate {α : Type} [LinearOrder α] (n : Nat) (a : α) :
    List.Sorted (· ≤ ·) (List.replicate n a) := by
  induction n with
  | zero => exact List.sorted_nil
  | succ m ih =>
    rw [List.replicate_succ]
    refine List.Pairwise.cons ?_ ih
    intro b hb
    rw [List.eq_of_mem_replicate hb]

theorem sortedAsc_replicate {α : Type} [LinearOrder α] (n : Nat) (a : α) :
    sortedAsc (List.replicate n a) = List.replicate n a := by
  refine List.eq_of_perm_of_sorted (List.perm_insertionSort _ _) ?_ (sorted_replicate n a)
  exact List.sorted_insertionSort _ _

theorem npPercentile_replicate (q : ℝ) (n : Nat) (a : ℝ) (h1 : 1 ≤ n)
    (hq0 : 0 ≤ q) (hq100 : q ≤ 100) :
    npPercentile q (List.replicate n a) = a := by
  unfold npPercentile
  rw [sortedAsc_replicate]
  simp only [List.length_replicate]
  have hn1 : (0 : ℝ) ≤ (n : ℝ) - 1 := by
    have : (1 : ℝ) ≤ (n : ℝ) := by exact_mod_cast h1
    linarith
  have hh0 : (0 : ℝ) ≤ ((n : ℝ) - 1) * q / 100 := by positivity
  have hhle : ((n : ℝ) - 1) * q / 100 ≤ (n : ℝ) - 1 := by
    rw [div_le_iff₀ (by norm_num : (0:ℝ) < 100)]
    nlinarith
  have hfl : ⌊((n : ℝ) - 1) * q / 100⌋ ≤ (n : ℤ) - 1 := by
    have h2 : ((n : ℝ) - 1) = (((n : ℤ) - 1 : ℤ) : ℝ) := by push_cast; ring
    calc ⌊((n : ℝ) - 1) * q / 100⌋ ≤ ⌊(n : ℝ) - 1⌋ := Int.floor_le_floor hhle
      _ = (n : ℤ) - 1 := by rw [h2, Int.floor_intCast]
  have hfl0 : 0 ≤ ⌊((n : ℝ) - 1) * q / 100⌋ := Int.floor_nonneg.mpr hh0
  have hlo : (⌊((n : ℝ) - 1) * q / 100⌋).toNat < n := by omega
  have hhi : min ((⌊((n : ℝ) - 1) * q / 100⌋).toNat + 1) (n - 1) < n := by omega
  rw [getD_replicate n _ a 0 hlo, getD_replicate n _ a 0 hhi]
  ring

theorem matchedTypicalMax_nonneg (labelLower : String) (m : ℝ)
    (h : matchedTypicalMax labelLower = some m) : 0 ≤ m := by
  unfold matchedTypicalMax at h
  rcases Option.map_eq_some'.mp h with ⟨p, hp, hpm⟩
  have hmem := List.mem_of_find?_eq_some hp
  unfold typicalMaxVolumes at hmem
  subst hpm
  fin_cases hmem <;> norm_num

theorem capVolume_bounds (labelLower : String) (d v : ℝ) :
    capVolume labelLower d v ≤ 1000 ∧
    capVolume labelLower d v ≤ d ^ 3 * 0.5 ∧
    ∀ m, matchedTypicalMax labelLower = some m → capVolume labelLower d v ≤ m := by
  unfold capVolume
  rcases hm : matchedTypicalMax labelLower with _ | m
  · simp only
    constructor
    · split
      · exact min_le_right _ _
      · next hlt => exact le_trans (le_of_not_lt hlt) (min_le_right _ _)
    constructor
    · split
      · exact le_trans (min_le_left _ _) (le_refl _)
      · next hlt => exact le_trans (le_of_not_lt hlt) (min_le_left _ _)
    · intro m hmm
      cases hmm
  · simp only
    refine ⟨?_, ?_, ?_⟩
    · split
      · exact min_le_right _ _
      · next hlt => exact le_trans (le_of_not_lt hlt) (min_le_right _ _)
    · have h1 : min (min (d ^ 3 * 0.5) m) 1000 ≤ d ^ 3 * 0.5 :=
        le_trans (min_le_left _ _) (min_le_left _ _)
      split
      · exact h1
      · next hlt => exact le_trans (le_of_not_lt hlt) h1
    · intro m' hmm
      cases hmm
      have h1 : min (min (d ^ 3 * 0.5) m) 1000 ≤ m :=
        le_trans (min_le_left _ _) (min_le_right _ _)
      split
      · exact h1
      · next hlt => exact le_trans (le_of_not_lt hlt) h1

theorem matchedTypicalMax_fries (labelLower : String)
    (hf : strContains "fries" labelLower)
    (hb : ¬ strContains "burger" labelLower)
    (hs : ¬ strContains "sandwich" labelLower) :
    matchedTypicalMax labelLower = some 200 := by
  have hcb : ¬ strContains "cheeseburger" labelLower := fun h =>
    hb (List.IsInfix.trans (by decide) h)
  have hhb : ¬ strContains "hamburger" labelLower := fun h =>
    hb (List.IsInfix.trans (by decide) h)
  unfold matchedTypicalMax typicalMaxVolumes
  rw [List.find?_cons_of_neg _ (by simpa using hb),
      List.find?_cons_of_neg _ (by simpa using hs),
      List.find?_cons_of_neg _ (by simpa using hcb),
      List.find?_cons_of_neg _ (by simpa using hhb),
      List.find?_cons_of_pos _ (by simpa using hf)]
  rfl

end FoodVision

namespace FoodVision

/-- Claim C3 (amended): every volume the estimator returns is bounded by
1000 ml, by diameter_cm cubed times 0.5, and by the FIRST matching entry of
the typical-volume table in its fixed order (burger, sandwich,
cheeseburger, hamburger, fries, ...).  A label containing fries is
guaranteed the 200 ml cap only when no earlier keyword (burger or
sandwich, which also cover cheeseburger and hamburger) occurs in the
label. -/
theorem volumeEstimator_caps (pixels : List (Bool × ℝ)) (box : Box ℝ)
    (label : String) (calib : CalibrationState ℝ) :
    (calculateVolumeMetric3d pixels box label calib).volume_ml ≤ 1000 ∧
    (calculateVolumeMetric3d pixels box label calib).volume_ml
      ≤ (calculateVolumeMetric3d pixels box label calib).diameter_cm ^ 3 * 0.5 ∧
    (∀ m, matchedTypicalMax (pyLower label) = some m →
      (calculateVolumeMetric3d pixels box label calib).volume_ml ≤ m) ∧
    (strContains "fries" (pyLower label) → ¬ strContains "burger" (pyLower label) →
      ¬ strContains "sandwich" (pyLower label) →
      (calculateVolumeMetric3d pixels box label calib).volume_ml ≤ 200) := by
  simp only [calculateVolumeMetric3d]
  split
  · refine ⟨by norm_num, by norm_num, ?_, ?_⟩
    · intro m hm
      exact le_trans (by norm_num) (matchedTypicalMax_nonneg _ m hm)
    · intro _ _ _
      norm_num
  · split
    · refine ⟨by norm_num, by norm_num, ?_, ?_⟩
      · intro m hm
        exact le_trans (by norm_num) (matchedTypicalMax_nonneg _ m hm)
      · intro _ _ _
        norm_num
    · obtain ⟨h1, h2, h3⟩ := capVolume_bounds (pyLower label)
        (2 * Real.sqrt
          ((((pixels.filter fun p => p.1).length : ℝ) / (calib.pixels_per_cm.getD 0) ^ 2)
            / Real.pi))
        ((((pixels.filter fun p => p.1).length : ℝ) / (calib.pixels_per_cm.getD 0) ^ 2)
          * heightCmFor (pyLower label)
            (rawHeightCm
              (((pixels.filter fun p => p.1).map fun p => p.2).filter fun d => decide (0 < d))
              calib.reference_plane_depth_m)
            (2 * Real.sqrt
              ((((pixels.filter fun p => p.1).length : ℝ)
                / (calib.pixels_per_cm.getD 0) ^ 2) / Real.pi))
          * shapeFactorFor (pyLower label)
            (2 * Real.sqrt
              ((((pixels.filter fun p => p.1).length : ℝ)
                / (calib.pixels_per_cm.getD 0) ^ 2) / Real.pi)))
      refine ⟨h1, h2, h3, ?_⟩
      intro hf hb hs
      exact h3 200 (matchedTypicalMax_fries _ hf hb hs)

theorem volumeEstimator_caps_witness :
    strContains "fries" (pyLower "Fries") ∧
    (calculateVolumeMetric3d [(false, 1)] ⟨0, 0, 1, 1⟩ "Fries"
      { pixels_per_cm := none, reference_plane_depth_m := none,
        calibrated := false }).volume_ml ≤ 200 :=
  ⟨by decide,
    (volumeEstimator_caps [(false, 1)] ⟨0, 0, 1, 1⟩ "Fries"
      { pixels_per_cm := none, reference_plane_depth_m := none,
        calibrated := false }).2.2.2 (by decide) (by decide) (by decide)⟩

/-- Claim C3 counterexample: the label "burger and fries" contains fries,
yet on a concrete 115200-pixel uniform mask under the default calibration
the computed volume exceeds 200 ml, because the category lookup matches
burger (500 ml) before fries (200 ml).  This refutes the claim that any
computed volume for a label containing fries never exceeds 200 ml. -/
theorem volumeEstimator_fries_counterexample :
    strContains "fries" (pyLower "burger and fries") ∧
    200 < (calculateVolumeMetric3d (List.replicate 115200 (true, 0.4))
      ⟨0, 0, 340, 340⟩ "burger and fries"
      { pixels_per_cm := some 16, reference_plane_depth_m := some 0.5,
        calibrated := true }).volume_ml := by
  refine ⟨by decide, ?_⟩
  have hπpos : (0 : ℝ) < Real.pi := Real.pi_pos
  have hπlt : Real.pi < 3.15 := Real.pi_lt_d2
  have hπgt : (3 : ℝ) < Real.pi := Real.pi_gt_three
  have hs0 : 0 ≤ Real.sqrt (450 / Real.pi) := Real.sqrt_nonneg _
  have hs1 : 100 / 9 < Real.sqrt (450 / Real.pi) := by
    rw [Real.lt_sqrt (by norm_num)]
    rw [lt_div_iff hπpos]
    nlinarith
  have hs2 : Real.sqrt (450 / Real.pi) < 13 := by
    rw [Real.sqrt_lt' (by norm_num)]
    rw [div_lt_iff hπpos]
    nlinarith
  have hfilter : (List.replicate 115200 ((true : Bool), (0.4 : ℝ))).filter (fun p => p.1)
      = List.replicate 115200 (true, 0.4) := by
    rw [List.filter_replicate]
    rfl
  have hvalid : (List.replicate 115200 (0.4 : ℝ)).filter (fun d => decide (0 < d))
      = List.replicate 115200 (0.4 : ℝ) := by
    rw [List.filter_replicate, if_pos]
    simp only [decide_eq_true_eq]
    norm_num
  simp only [calculateVolumeMetric3d, hfilter, List.map_replicate, List.length_replicate]
  rw [if_neg (by norm_num)]
  rw [hvalid]
  rw [if_neg (by rw [List.length_replicate]; norm_num)]
  simp only [Option.getD_some, Nat.cast_ofNat]
  have harea : (115200 : ℝ) / (16 : ℝ) ^ 2 = 450 := by norm_num
  rw [harea]
  have hraw : rawHeightCm (List.replicate 115200 (0.4 : ℝ)) (some 0.5) = 10 := by
    simp only [rawHeightCm]
    rw [if_pos (by norm_num : (0:ℝ) < 0.5)]
    rw [npPercentile_replicate 10 115200 0.4 (by norm_num) (by norm_num) (by norm_num)]
    rw [npPercentile_replicate 90 115200 0.4 (by norm_num) (by norm_num) (by norm_num)]
    rw [max_eq_left (by norm_num : (0.4 : ℝ) - 0.4 ≤ 0.5 - 0.4)]
    rw [max_eq_right (by norm_num : (0 : ℝ) ≤ (0.5 - 0.4) * 100)]
    norm_num
  rw [hraw]
  have hheight : heightCmFor (pyLower "burger and fries") 10
      (2 * Real.sqrt (450 / Real.pi)) = 2 * Real.sqrt (450 / Real.pi) * 0.05 := by
    unfold heightCmFor
    rw [if_neg (by decide), if_neg (by decide), if_pos (by decide)]
    rw [min_eq_right (by nlinarith : 2 * Real.sqrt (450 / Real.pi) * 0.05 ≤ 10)]
    rw [max_eq_left (by nlinarith : (0.3 : ℝ) ≤ 2 * Real.sqrt (450 / Real.pi) * 0.05)]
    rw [min_eq_left (by nlinarith : 2 * Real.sqrt (450 / Real.pi) * 0.05 ≤ 2)]
  rw [hheight]
  have hshape : shapeFactorFor (pyLower "burger and fries")
      (2 * Real.sqrt (450 / Real.pi)) = 0.4 := by
    unfold shapeFactorFor
    rw [if_pos (by decide)]
  rw [hshape]
  have hfind : matchedTypicalMax (pyLower "burger and fries") = some 500 := by
    unfold matchedTypicalMax typicalMaxVolumes
    rw [List.find?_cons_of_pos _ (by simp only [decide_eq_true_eq]; decide)]
    rfl
  show (200 : ℝ) < (capVolume (pyLower "burger and fries") (2 * Real.sqrt (450 / Real.pi))
    (450 * (2 * Real.sqrt (450 / Real.pi) * 0.05) * 0.4) : ℝ)
  unfold capVolume
  rw [hfind]
  simp only
  have hcube : (100 / 9 : ℝ) ^ 3 < Real.sqrt (450 / Real.pi) ^ 3 :=
    pow_lt_pow_left hs1 (by norm_num) (by norm_num)
  rw [min_eq_right (by nlinarith :
    (500 : ℝ) ≤ (2 * Real.sqrt (450 / Real.pi)) ^ 3 * 0.5)]
  rw [min_eq_left (by norm_num : (500 : ℝ) ≤ 1000)]
  rw [if_neg (by nlinarith : ¬ (500 : ℝ) < 450 * (2 * Real.sqrt (450 / Real.pi) * 0.05) * 0.4)]
  nlinarith

end FoodVision

namespace FoodVision

theorem sortedAsc_sorted {α : Type} [LinearOrder α] (l : List α) :
    List.Sorted (· ≤ ·) (sortedAsc l) :=
  List.sorted_insertionSort _ l

theorem sortedAsc_perm {α : Type} [LinearOrder α] (l : List α) :
    (sortedAsc l).Perm l :=
  List.perm_insertionSort _ l

theorem sortedAsc_append_zero {α : Type} [LinearOrderedField α] (l : List α)
    (h0 : ∀ x ∈ l, 0 ≤ x) :
    sortedAsc (l ++ [0]) = 0 :: sortedAsc l := by
  refine List.eq_of_perm_of_sorted ?_ (sortedAsc_sorted _) ?_
  · exact (sortedAsc_perm _).trans
      ((List.perm_append_singleton 0 l).trans
        (List.Perm.cons 0 (sortedAsc_perm l).symm))
  · refine List.Pairwise.cons ?_ (sortedAsc_sorted l)
    intro b hb
    exact h0 b ((sortedAsc_perm l).mem_iff.mp hb)

theorem sorted_getD_le {α : Type} [LinearOrderedField α] (s : List α)
    (hs : List.Sorted (· ≤ ·) s) (i j : Nat) (hij : i ≤ j) (hj : j < s.length) :
    s.getD i 0 ≤ s.getD j 0 := by
  rcases eq_or_lt_of_le hij with rfl | hlt
  · exact le_refl _
  · have hi : i < s.length := lt_trans hlt hj
    rw [List.getD_eq_getElem s 0 hi, List.getD_eq_getElem s 0 hj]
    exact List.pairwise_iff_get.mp hs ⟨i, hi⟩ ⟨j, hj⟩ hlt

theorem sorted_getD_nonneg {α : Type} [LinearOrderedField α] (s : List α)
    (h0 : ∀ x ∈ s, 0 ≤ x) (i : Nat) (hi : i < s.length) :
    0 ≤ s.getD i 0 := by
  rw [List.getD_eq_getElem s 0 hi]
  exact h0 _ (List.getElem_mem hi)

theorem npMedianOfNonempty_append_zero {α : Type} [LinearOrderedField α]
    (l : List α) (hne : l ≠ []) (h0 : ∀ x ∈ l, 0 ≤ x) :
    npMedianOfNonempty (l ++ [0]) ≤ npMedianOfNonempty l := by
  unfold npMedianOfNonempty
  rw [sortedAsc_append_zero l h0]
  have hsort : List.Sorted (· ≤ ·) (sortedAsc l) := sortedAsc_sorted l
  have hmem : ∀ x ∈ sortedAsc l, 0 ≤ x := fun x hx =>
    h0 x ((sortedAsc_perm l).mem_iff.mp hx)
  have hlen : (sortedAsc l).length = l.length := (sortedAsc_perm l).length_eq
  have hpos : 1 ≤ (sortedAsc l).length := by
    rw [hlen]
    exact List.length_pos.mpr hne
  simp only [List.length_cons]
  set s := sortedAsc l with hsdef
  set n := s.length with hndef
  rcases Nat.even_or_odd n with ⟨k, hk⟩ | ⟨k, hk⟩
  · -- n = 2k, k ≥ 1: new length odd, old even
    have hk1 : 1 ≤ k := by omega
    rw [if_pos (by omega : (n + 1) % 2 = 1), if_neg (by omega : ¬ n % 2 = 1)]
    have hidx : (n + 1) / 2 = k := by omega
    rw [hidx]
    have hsucc : k = (k - 1) + 1 := by omega
    rw [hsucc, List.getD_cons_succ]
    have e1 : n / 2 - 1 = k - 1 := by omega
    have e2 : n / 2 = k := by omega
    rw [e1, e2]
    have hle : s.getD (k - 1) 0 ≤ s.getD k 0 :=
      sorted_getD_le s hsort (k - 1) k (by omega) (by omega)
    linarith
  · -- n = 2k + 1: new length even, old odd
    rw [if_neg (by omega : ¬ (n + 1) % 2 = 1), if_pos (by omega : n % 2 = 1)]
    have hidx1 : (n + 1) / 2 - 1 = k := by omega
    have hidx2 : (n + 1) / 2 = k + 1 := by omega
    have hidx3 : n / 2 = k := by omega
    rw [hidx1, hidx2, hidx3, List.getD_cons_succ]
    rcases Nat.eq_zero_or_pos k with rfl | hk1
    · rw [List.getD_cons_zero]
      have : 0 ≤ s.getD 0 0 := sorted_getD_nonneg s hmem 0 (by omega)
      linarith
    · have hsucc : k = (k - 1) + 1 := by omega
      rw [hsucc, List.getD_cons_succ]
      have hle : s.getD (k - 1) 0 ≤ s.getD k 0 :=
        sorted_getD_le s hsort (k - 1) k (by omega) (by omega)
      have hrw : k - 1 + 1 = k := by omega
      rw [hrw]
      linarith

theorem npMean_append_zero (l : List ℝ) (hne : l ≠ []) (h0 : ∀ x ∈ l, 0 ≤ x) :
    npMean (l ++ [0]) ≤ npMean l := by
  unfold npMean
  rw [List.sum_append, List.length_append]
  have hsum : 0 ≤ l.sum := List.sum_nonneg h0
  have hn : 0 < (l.length : ℝ) := by
    have := List.length_pos.mpr hne
    exact_mod_cast this
  have hn1 : 0 < ((l.length + 1 : ℕ) : ℝ) := by positivity
  simp only [List.sum_cons, List.sum_nil, List.length_cons, List.length_nil]
  rw [div_le_div_iff (by push_cast; linarith) hn]
  push_cast
  nlinarith

end FoodVision

namespace FoodVision

/-- Claim C10: when the mask selects no pixels, or no in-mask depth is
positive, or calibration has not occurred, the volume estimator returns a
sample with volume 0.0 and height 0.0 rather than failing; the sample is
still appended to the VolumeHistory, incrementing its length, and it pulls
the mean and the median of the recorded volumes down (never up). -/
theorem zeroVolumeSample_accrual (pixels : List (Bool × ℝ)) (box : Box ℝ)
    (label : String) (calib : CalibrationState ℝ)
    (hist : List VolumeSample) (frameIdx : Nat)
    (hcond : (pixels.filter fun p => p.1) = [] ∨
      (((pixels.filter fun p => p.1).map fun p => p.2).filter fun d => decide (0 < d)) = []
      ∨ calib.calibrated = false)
    (hne : hist ≠ []) (h0 : ∀ s ∈ hist, 0 ≤ s.volume_ml) :
    (calculateVolumeMetric3d pixels box label calib).volume_ml = 0 ∧
    (calculateVolumeMetric3d pixels box label calib).avg_height_cm = 0 ∧
    (recordVolumeSample hist frameIdx
      (calculateVolumeMetric3d pixels box label calib)).length = hist.length + 1 ∧
    npMean ((recordVolumeSample hist frameIdx
        (calculateVolumeMetric3d pixels box label calib)).map fun s => s.volume_ml)
      ≤ npMean (hist.map fun s => s.volume_ml) ∧
    npMedianOfNonempty ((recordVolumeSample hist frameIdx
        (calculateVolumeMetric3d pixels box label calib)).map fun s => s.volume_ml)
      ≤ npMedianOfNonempty (hist.map fun s => s.volume_ml) := by
  have hzero : (calculateVolumeMetric3d pixels box label calib).volume_ml = 0 ∧
      (calculateVolumeMetric3d pixels box label calib).avg_height_cm = 0 := by
    by_cases hc1 : ((pixels.filter fun p => p.1).map fun p => p.2).length = 0
        ∨ ¬ calib.calibrated = true
    · simp only [calculateVolumeMetric3d]
      rw [if_pos hc1]
      exact ⟨rfl, rfl⟩
    · have hvalid : (((pixels.filter fun p => p.1).map fun p => p.2).filter
          fun d => decide (0 < d)) = [] := by
        rcases hcond with h | h | h
        · exact absurd (Or.inl (by rw [h]; rfl)) hc1
        · exact h
        · exact absurd (Or.inr (by rw [h]; exact Bool.false_ne_true)) hc1
      simp only [calculateVolumeMetric3d]
      rw [if_neg hc1, hvalid]
      rw [if_pos (show ([] : List ℝ).length = 0 from rfl)]
      exact ⟨rfl, rfl⟩
  have hmap : (recordVolumeSample hist frameIdx
      (calculateVolumeMetric3d pixels box label calib)).map (fun s => s.volume_ml)
      = (hist.map fun s => s.volume_ml) ++ [0] := by
    unfold recordVolumeSample
    rw [List.map_append]
    simp only [List.map_cons, List.map_nil]
    rw [hzero.1]
  have hne2 : (hist.map fun s => s.volume_ml) ≠ [] := by
    intro h
    exact hne (List.map_eq_nil_iff.mp h)
  have h02 : ∀ x ∈ hist.map fun s => s.volume_ml, 0 ≤ x := by
    intro x hx
    rcases List.mem_map.mp hx with ⟨s, hs, rfl⟩
    exact h0 s hs
  refine ⟨hzero.1, hzero.2, ?_, ?_, ?_⟩
  · unfold recordVolumeSample
    rw [List.length_append]
    rfl
  · rw [hmap]
    exact npMean_append_zero _ hne2 h02
  · rw [hmap]
    exact npMedianOfNonempty_append_zero _ hne2 h02

theorem zeroVolumeSample_accrual_witness :
    (calculateVolumeMetric3d [(false, 1)] ⟨0, 0, 1, 1⟩ "rice"
      ⟨some 16, some 0.5, true⟩).volume_ml = 0 ∧
    (calculateVolumeMetric3d [(false, 1)] ⟨0, 0, 1, 1⟩ "rice"
      ⟨some 16, some 0.5, true⟩).avg_height_cm = 0 ∧
    (recordVolumeSample [⟨0, 100, 1, 1, 1⟩] 5
      (calculateVolumeMetric3d [(false, 1)] ⟨0, 0, 1, 1⟩ "rice"
        ⟨some 16, some 0.5, true⟩)).length
      = [(⟨0, 100, 1, 1, 1⟩ : VolumeSample)].length + 1 ∧
    npMean ((recordVolumeSample [⟨0, 100, 1, 1, 1⟩] 5
      (calculateVolumeMetric3d [(false, 1)] ⟨0, 0, 1, 1⟩ "rice"
        ⟨some 16, some 0.5, true⟩)).map fun s => s.volume_ml)
      ≤ npMean (([(⟨0, 100, 1, 1, 1⟩ : VolumeSample)]).map fun s => s.volume_ml) ∧
    npMedianOfNonempty ((recordVolumeSample [⟨0, 100, 1, 1, 1⟩] 5
      (calculateVolumeMetric3d [(false, 1)] ⟨0, 0, 1, 1⟩ "rice"
        ⟨some 16, some 0.5, true⟩)).map fun s => s.volume_ml)
      ≤ npMedianOfNonempty
          (([(⟨0, 100, 1, 1, 1⟩ : VolumeSample)]).map fun s => s.volume_ml) :=
  zeroVolumeSample_accrual [(false, 1)] ⟨0, 0, 1, 1⟩ "rice"
    ⟨some 16, some 0.5, true⟩ [⟨0, 100, 1, 1, 1⟩] 5 (Or.inl rfl) (by simp)
    (by
      intro s hs
      rw [List.mem_singleton] at hs
      rw [hs]
      norm_num)

end FoodVision

namespace FoodVision

theorem filter_not_contains_singleton (hist : Hist) (k : Nat) :
    (hist.filter fun e => ¬ [k].contains e.1) = histDelete hist k := by
  unfold histDelete
  apply List.filter_congr
  intro e _
  simp [List.contains]

theorem dedupTracked_pair_eval (id1 id2 : Nat) (d1 d2 : TrackedData) (hist : Hist)
    (hne : id1 ≠ id2)
    (hlab : normalizeLabelTracked d1.label = normalizeLabelTracked d2.label)
    (hdup : isDuplicateTracked d1.box d2.box) :
    (boxArea d2.box ≤ boxArea d1.box →
      dedupTracked [(id1, d1), (id2, d2)] hist
        = ([(id1, d1)], histDelete (histExtend hist id1 id2) id2)) ∧
    (boxArea d1.box < boxArea d2.box →
      dedupTracked [(id1, d1), (id2, d2)] hist
        = ([(id2, d2)], histDelete (histExtend hist id2 id1) id1)) := by
  constructor
  · intro harea
    have hinner : dedupTrackedInner [(id1, d1), (id2, d2)]
        (0, { box := ⟨0, 0, 0, 0⟩, label := "" }) 0 [1] [true, true] hist
        = ([true, false], histExtend hist id1 id2) := by
      simp only [dedupTrackedInner, List.getD_cons_zero, List.getD_cons_succ]
      rw [if_neg (by decide)]
      rw [if_neg (not_not_intro hlab)]
      rw [if_pos hdup]
      rw [if_pos harea]
      rfl
    have houter : dedupTrackedOuter [(id1, d1), (id2, d2)]
        (0, { box := ⟨0, 0, 0, 0⟩, label := "" }) [0, 1] [true, true] hist
        = ([true, false], histExtend hist id1 id2) := by
      simp only [dedupTrackedOuter]
      rw [if_neg (by decide)]
      have hr : List.range' (0 + 1) ([(id1, d1), (id2, d2)].length - (0 + 1)) = [1] := rfl
      rw [hr, hinner]
      simp only [dedupTrackedOuter]
      rw [if_pos (by decide)]
    unfold dedupTracked
    rw [if_neg (by norm_num)]
    dsimp only
    have hrange : List.range ([(id1, d1), (id2, d2)].length) = [0, 1] := rfl
    have hrep : List.replicate ([(id1, d1), (id2, d2)].length) true = [true, true] := rfl
    rw [hrange, hrep, houter]
    dsimp only
    have hkept : (([(id1, d1), (id2, d2)].enum.filter
        fun e => ([true, false] : List Bool).getD e.1 false).map fun e => e.2)
        = [(id1, d1)] := rfl
    have hrem : ((([(id1, d1), (id2, d2)].enum.filter
        fun e => ¬ ([true, false] : List Bool).getD e.1 false).map fun e => e.2.1) : List Nat)
        = [id2] := rfl
    rw [hkept, hrem, filter_not_contains_singleton]
  · intro harea
    have hinner : dedupTrackedInner [(id1, d1), (id2, d2)]
        (0, { box := ⟨0, 0, 0, 0⟩, label := "" }) 0 [1] [true, true] hist
        = ([false, true], histExtend hist id2 id1) := by
      simp only [dedupTrackedInner, List.getD_cons_zero, List.getD_cons_succ]
      rw [if_neg (by decide)]
      rw [if_neg (not_not_intro hlab)]
      rw [if_pos hdup]
      rw [if_neg (not_le.mpr harea)]
      rfl
    have hinner2 : dedupTrackedInner [(id1, d1), (id2, d2)]
        (0, { box := ⟨0, 0, 0, 0⟩, label := "" }) 1 [] [false, true]
        (histExtend hist id2 id1)
        = ([false, true], histExtend hist id2 id1) := rfl
    have houter : dedupTrackedOuter [(id1, d1), (id2, d2)]
        (0, { box := ⟨0, 0, 0, 0⟩, label := "" }) [0, 1] [true, true] hist
        = ([false, true], histExtend hist id2 id1) := by
      simp only [dedupTrackedOuter]
      rw [if_neg (by decide)]
      have hr : List.range' (0 + 1) ([(id1, d1), (id2, d2)].length - (0 + 1)) = [1] := rfl
      rw [hr, hinner]
      simp only [dedupTrackedOuter]
      rw [if_neg (by decide)]
      have hr2 : List.range' (1 + 1) ([(id1, d1), (id2, d2)].length - (1 + 1))
          = ([] : List Nat) := rfl
      rw [hr2, hinner2]
    unfold dedupTracked
    rw [if_neg (by norm_num)]
    dsimp only
    have hrange : List.range ([(id1, d1), (id2, d2)].length) = [0, 1] := rfl
    have hrep : List.replicate ([(id1, d1), (id2, d2)].length) true = [true, true] := rfl
    rw [hrange, hrep, houter]
    dsimp only
    have hkept : (([(id1, d1), (id2, d2)].enum.filter
        fun e => ([false, true] : List Bool).getD e.1 false).map fun e => e.2)
        = [(id2, d2)] := rfl
    have hrem : ((([(id1, d1), (id2, d2)].enum.filter
        fun e => ¬ ([false, true] : List Bool).getD e.1 false).map fun e => e.2.1) : List Nat)
        = [id1] := rfl
    rw [hkept, hrem, filter_not_contains_singleton]

end FoodVision

namespace FoodVision

/-- Claim C4 (amended): for a pair of tracked objects with equal
normalized labels satisfying the duplicate predicate, and with both ids
present in the volume-history map, the merge keeps the larger-area object
id, concatenates the histories onto it (dropping the other object and its
history key), and the kept history length is the sum of the two original
lengths. -/
theorem dedupTracked_merge_spec (id1 id2 : Nat) (d1 d2 : TrackedData)
    (h1 h2 : List VolumeSample) (hne : id1 ≠ id2)
    (hlab : normalizeLabelTracked d1.label = normalizeLabelTracked d2.label)
    (hdup : isDuplicateTracked d1.box d2.box) :
    (boxArea d2.box ≤ boxArea d1.box →
      dedupTracked [(id1, d1), (id2, d2)] [(id1, h1), (id2, h2)]
        = ([(id1, d1)], [(id1, h1 ++ h2)]) ∧
      (((dedupTracked [(id1, d1), (id2, d2)] [(id1, h1), (id2, h2)]).2.lookup id1).getD
        []).length = h1.length + h2.length) ∧
    (boxArea d1.box < boxArea d2.box →
      dedupTracked [(id1, d1), (id2, d2)] [(id1, h1), (id2, h2)]
        = ([(id2, d2)], [(id2, h2 ++ h1)]) ∧
      (((dedupTracked [(id1, d1), (id2, d2)] [(id1, h1), (id2, h2)]).2.lookup id2).getD
        []).length = h2.length + h1.length) := by
  obtain ⟨hA, hB⟩ := dedupTracked_pair_eval id1 id2 d1 d2 [(id1, h1), (id2, h2)]
    hne hlab hdup
  have hbeq12 : (id1 == id2) = false := by
    simp only [beq_eq_false_iff_ne, ne_eq]
    exact hne
  have hbeq21 : (id2 == id1) = false := by
    simp only [beq_eq_false_iff_ne, ne_eq]
    exact fun h => hne h.symm
  have hne2 : id2 ≠ id1 := fun h => hne h.symm
  have hext12 : histExtend [(id1, h1), (id2, h2)] id1 id2 = [(id1, h1 ++ h2), (id2, h2)] := by
    unfold histExtend
    have l1 : List.lookup id1 [(id1, h1), (id2, h2)] = some h1 := by
      simp [List.lookup]
    have l2 : List.lookup id2 [(id1, h1), (id2, h2)] = some h2 := by
      simp [List.lookup, hbeq21]
    rw [l1, l2]
    simp [hne2]
  have hext21 : histExtend [(id1, h1), (id2, h2)] id2 id1 = [(id1, h1), (id2, h2 ++ h1)] := by
    unfold histExtend
    have l1 : List.lookup id1 [(id1, h1), (id2, h2)] = some h1 := by
      simp [List.lookup]
    have l2 : List.lookup id2 [(id1, h1), (id2, h2)] = some h2 := by
      simp [List.lookup, hbeq21]
    rw [l1, l2]
    simp [hne]
  have hdel12 : histDelete [(id1, h1 ++ h2), (id2, h2)] id2 = [(id1, h1 ++ h2)] := by
    simp [histDelete, List.filter_cons, hne]
  have hdel21 : histDelete [(id1, h1), (id2, h2 ++ h1)] id1 = [(id2, h2 ++ h1)] := by
    simp [histDelete, List.filter_cons, hne2]
  constructor
  · intro harea
    have heq := hA harea
    rw [hext12, hdel12] at heq
    refine ⟨heq, ?_⟩
    rw [heq]
    simp [List.lookup, List.length_append]
  · intro harea
    have heq := hB harea
    rw [hext21, hdel21] at heq
    refine ⟨heq, ?_⟩
    rw [heq]
    simp [List.lookup, List.length_append]

theorem dedupTracked_merge_spec_witness :
    dedupTracked
      [(1, ({ box := ⟨0, 0, 10, 10⟩, label := "ribs" } : TrackedData)),
       (2, { box := ⟨0, 0, 10, 3⟩, label := "ribs" })]
      [(1, [⟨0, 50, 1, 1, 1⟩]), (2, [⟨10, 60, 1, 1, 1⟩])]
      = ([(1, ({ box := ⟨0, 0, 10, 10⟩, label := "ribs" } : TrackedData))],
         [(1, [⟨0, 50, 1, 1, 1⟩] ++ [⟨10, 60, 1, 1, 1⟩])]) ∧
    (((dedupTracked
      [(1, ({ box := ⟨0, 0, 10, 10⟩, label := "ribs" } : TrackedData)),
       (2, { box := ⟨0, 0, 10, 3⟩, label := "ribs" })]
      [(1, [⟨0, 50, 1, 1, 1⟩]), (2, [⟨10, 60, 1, 1, 1⟩])]).2.lookup 1).getD []).length
      = ([⟨0, 50, 1, 1, 1⟩] : List VolumeSample).length
        + ([⟨10, 60, 1, 1, 1⟩] : List VolumeSample).length :=
  (dedupTracked_merge_spec 1 2
    { box := ⟨0, 0, 10, 10⟩, label := "ribs" } { box := ⟨0, 0, 10, 3⟩, label := "ribs" }
    [⟨0, 50, 1, 1, 1⟩] [⟨10, 60, 1, 1, 1⟩] (by decide) (by decide)
    (Or.inl (by norm_num [calculateIoU]))).1
    (by norm_num [boxArea])

/-- Claim C4 counterexample: two duplicate "ribs" objects where the kept
(larger) object has no volume-history entry while the dropped one has one
sample.  After the merge pass the kept object has an empty history: its
length is 0, not the sum 0 + 1 of the original lengths; the smaller
object history was deleted, not transferred. -/
theorem dedupTracked_lost_history_counterexample :
    normalizeLabelTracked "ribs" = normalizeLabelTracked "ribs" ∧
    isDuplicateTracked (⟨0, 0, 10, 10⟩ : Box ℝ) ⟨0, 0, 10, 3⟩ ∧
    ((((dedupTracked
        [(1, ({ box := ⟨0, 0, 10, 10⟩, label := "ribs" } : TrackedData)),
         (2, { box := ⟨0, 0, 10, 3⟩, label := "ribs" })]
        [(2, [⟨10, 60, 1, 1, 1⟩])]).2.lookup 1).getD []).length = 0) ∧
    (0 : Nat) ≠ 0 + ([⟨10, 60, 1, 1, 1⟩] : List VolumeSample).length := by
  have hdup : isDuplicateTracked (⟨0, 0, 10, 10⟩ : Box ℝ) ⟨0, 0, 10, 3⟩ :=
    Or.inl (by norm_num [calculateIoU])
  refine ⟨rfl, hdup, ?_, by norm_num⟩
  have heq := (dedupTracked_pair_eval 1 2
    { box := ⟨0, 0, 10, 10⟩, label := "ribs" } { box := ⟨0, 0, 10, 3⟩, label := "ribs" }
    [(2, [⟨10, 60, 1, 1, 1⟩])] (by decide) (by decide) hdup).1 (by norm_num [boxArea])
  rw [heq]
  rfl

/-- Claim C5 (amended): during accrual the volume history of every object
stays strictly increasing in frame index, because each detection event
appends one sample whose frame index exceeds every recorded one.  (The
post-processing merge pass does not preserve this; see the
counterexample.) -/
theorem recordVolumeSample_framesStrictMono (hist : List VolumeSample) (f : Nat)
    (m : VolumeMetrics) (hmono : framesStrictMono hist)
    (hf : ∀ s ∈ hist, s.frame < f) :
    framesStrictMono (recordVolumeSample hist f m) := by
  unfold framesStrictMono recordVolumeSample
  rw [List.map_append]
  refine List.Chain'.append hmono ?_ ?_
  · simp
  · intro x hx y hy
    simp only [List.map_cons, List.map_nil, List.head?_cons, Option.mem_def,
      Option.some.injEq] at hy
    have hxmem : x ∈ hist.map fun s => s.frame := List.mem_of_mem_getLast? hx
    rcases List.mem_map.mp hxmem with ⟨s, hs, rfl⟩
    rw [← hy]
    exact hf s hs

theorem recordVolumeSample_framesStrictMono_witness :
    framesStrictMono (recordVolumeSample [⟨0, 50, 1, 1, 1⟩] 5 ⟨0, 0, 0, 0⟩) := by
  have h := recordVolumeSample_framesStrictMono [⟨0, 50, 1, 1, 1⟩] 5 ⟨0, 0, 0, 0⟩
    (by
      unfold framesStrictMono
      simp)
    (by
      intro s hs
      rw [List.mem_singleton] at hs
      rw [hs]
      show (0 : Nat) < 5
      norm_num)
  exact h

/-- Claim C5 counterexample: two duplicate "ribs" objects with
individually frame-monotone histories at frames (0, 20) and (10).  The
merge pass concatenates them to frames (0, 20, 10), which is not
monotonically increasing, refuting the claim that the invariant holds at
every point including after the merge pass. -/
theorem dedupTracked_breaks_monotonicity_counterexample :
    framesStrictMono [⟨0, 50, 1, 1, 1⟩, ⟨20, 55, 1, 1, 1⟩] ∧
    framesStrictMono [⟨10, 60, 1, 1, 1⟩] ∧
    ¬ framesStrictMono
      (((dedupTracked
          [(1, ({ box := ⟨0, 0, 10, 10⟩, label := "ribs" } : TrackedData)),
           (2, { box := ⟨0, 0, 10, 3⟩, label := "ribs" })]
          [(1, [⟨0, 50, 1, 1, 1⟩, ⟨20, 55, 1, 1, 1⟩]),
           (2, [⟨10, 60, 1, 1, 1⟩])]).2.lookup 1).getD []) := by
  refine ⟨by unfold framesStrictMono; simp [List.chain'_cons], by unfold framesStrictMono; simp, ?_⟩
  have hdup : isDuplicateTracked (⟨0, 0, 10, 10⟩ : Box ℝ) ⟨0, 0, 10, 3⟩ :=
    Or.inl (by norm_num [calculateIoU])
  have heq := (dedupTracked_pair_eval 1 2
    { box := ⟨0, 0, 10, 10⟩, label := "ribs" } { box := ⟨0, 0, 10, 3⟩, label := "ribs" }
    [(1, [⟨0, 50, 1, 1, 1⟩, ⟨20, 55, 1, 1, 1⟩]), (2, [⟨10, 60, 1, 1, 1⟩])]
    (by decide) (by decide) hdup).1 (by norm_num [boxArea])
  rw [heq]
  show ¬ framesStrictMono [⟨0, 50, 1, 1, 1⟩, ⟨20, 55, 1, 1, 1⟩, ⟨10, 60, 1, 1, 1⟩]
  unfold framesStrictMono
  simp only [List.map_cons, List.map_nil, List.chain'_cons, List.chain'_singleton, and_true]
  omega

end FoodVision

namespace FoodVision

theorem oversizedPass_singleton (d : Box ℝ × String) : oversizedPass [d] = [d] := by
  unfold oversizedPass
  rw [if_pos (by norm_num)]
  have harea : labelAreasOf [d] d.2 = [boxArea d.1] := by
    unfold labelAreasOf
    rw [List.filter_cons, if_pos (by simp)]
    rfl
  rw [List.filter_cons, if_pos (by simp [harea])]
  rfl

theorem dedupDet_pair_keepFirst (b1 b2 : Box ℝ) (l1 l2 : String)
    (hinner : dedupDetInner [(b1, l1), (b2, l2)] (⟨0, 0, 0, 0⟩, "") 0 [1]
      [true, true] = [true, false]) :
    dedupDetections [(b1, l1), (b2, l2)] = [(b1, l1)] := by
  have houter : dedupDetOuter [(b1, l1), (b2, l2)] (⟨0, 0, 0, 0⟩, "") [0, 1]
      [true, true] = [true, false] := by
    simp only [dedupDetOuter]
    rw [if_neg (by decide)]
    have hr : List.range' (0 + 1) ([(b1, l1), (b2, l2)].length - (0 + 1)) = [1] := rfl
    rw [hr, hinner]
    rw [if_pos (by decide)]
  unfold dedupDetections
  rw [if_neg (by norm_num)]
  dsimp only
  have hrange : List.range ([(b1, l1), (b2, l2)].length) = [0, 1] := rfl
  have hrep : List.replicate ([(b1, l1), (b2, l2)].length) true = [true, true] := rfl
  rw [hrange, hrep, houter]
  have hfil : (([(b1, l1), (b2, l2)].enum.filter
      fun e => [true, false].getD e.1 false).map fun e => e.2) = [(b1, l1)] := rfl
  rw [hfil]
  exact oversizedPass_singleton _

theorem dedupDet_pair_keepSecond (b1 b2 : Box ℝ) (l1 l2 : String)
    (hinner : dedupDetInner [(b1, l1), (b2, l2)] (⟨0, 0, 0, 0⟩, "") 0 [1]
      [true, true] = [false, true]) :
    dedupDetections [(b1, l1), (b2, l2)] = [(b2, l2)] := by
  have houter : dedupDetOuter [(b1, l1), (b2, l2)] (⟨0, 0, 0, 0⟩, "") [0, 1]
      [true, true] = [false, true] := by
    simp only [dedupDetOuter]
    rw [if_neg (by decide)]
    have hr : List.range' (0 + 1) ([(b1, l1), (b2, l2)].length - (0 + 1)) = [1] := rfl
    rw [hr, hinner]
    rw [if_neg (by decide)]
    have hr2 : List.range' (1 + 1) ([(b1, l1), (b2, l2)].length - (1 + 1))
        = ([] : List Nat) := rfl
    rw [hr2]
    rfl
  unfold dedupDetections
  rw [if_neg (by norm_num)]
  dsimp only
  have hrange : List.range ([(b1, l1), (b2, l2)].length) = [0, 1] := rfl
  have hrep : List.replicate ([(b1, l1), (b2, l2)].length) true = [true, true] := rfl
  rw [hrange, hrep, houter]
  have hfil : (([(b1, l1), (b2, l2)].enum.filter
      fun e => [false, true].getD e.1 false).map fun e => e.2) = [(b2, l2)] := rfl
  rw [hfil]
  exact oversizedPass_singleton _

theorem dedupDetections_pair_cases (b1 b2 : Box ℝ) (l1 l2 : String)
    (hsim : labelsSimilar (normalizeLabelDet l1) (normalizeLabelDet l2)) :
    (0.2 < calculateIoU b1 b2 → boxArea b2 ≤ boxArea b1 →
      dedupDetections [(b1, l1), (b2, l2)] = [(b1, l1)]) ∧
    (0.2 < calculateIoU b1 b2 → boxArea b1 < boxArea b2 →
      dedupDetections [(b1, l1), (b2, l2)] = [(b2, l2)]) ∧
    (¬ 0.2 < calculateIoU b1 b2 →
      (centerDist b1 b2 < maxAvgSizeDet b1 b2 * 0.5 ∧ 0.6 < sizeRatio b1 b2) →
      boxArea b2 ≤ boxArea b1 →
      dedupDetections [(b1, l1), (b2, l2)] = [(b1, l1)]) ∧
    (¬ 0.2 < calculateIoU b1 b2 →
      (centerDist b1 b2 < maxAvgSizeDet b1 b2 * 0.5 ∧ 0.6 < sizeRatio b1 b2) →
      boxArea b1 < boxArea b2 →
      dedupDetections [(b1, l1), (b2, l2)] = [(b2, l2)]) ∧
    (¬ 0.2 < calculateIoU b1 b2 →
      ¬ (centerDist b1 b2 < maxAvgSizeDet b1 b2 * 0.5 ∧ 0.6 < sizeRatio b1 b2) →
      (boxContainsB b1 b2 ∨ boxContainsB b2 b1) →
      boxArea b2 * 1.5 < boxArea b1 →
      dedupDetections [(b1, l1), (b2, l2)] = [(b2, l2)]) ∧
    (¬ 0.2 < calculateIoU b1 b2 →
      ¬ (centerDist b1 b2 < maxAvgSizeDet b1 b2 * 0.5 ∧ 0.6 < sizeRatio b1 b2) →
      (boxContainsB b1 b2 ∨ boxContainsB b2 b1) →
      ¬ boxArea b2 * 1.5 < boxArea b1 → boxArea b1 * 1.5 < boxArea b2 →
      dedupDetections [(b1, l1), (b2, l2)] = [(b1, l1)]) ∧
    (¬ 0.2 < calculateIoU b1 b2 →
      ¬ (centerDist b1 b2 < maxAvgSizeDet b1 b2 * 0.5 ∧ 0.6 < sizeRatio b1 b2) →
      (boxContainsB b1 b2 ∨ boxContainsB b2 b1) →
      ¬ boxArea b2 * 1.5 < boxArea b1 → ¬ boxArea b1 * 1.5 < boxArea b2 →
      boxArea b2 ≤ boxArea b1 →
      dedupDetections [(b1, l1), (b2, l2)] = [(b1, l1)]) ∧
    (¬ 0.2 < calculateIoU b1 b2 →
      ¬ (centerDist b1 b2 < maxAvgSizeDet b1 b2 * 0.5 ∧ 0.6 < sizeRatio b1 b2) →
      (boxContainsB b1 b2 ∨ boxContainsB b2 b1) →
      ¬ boxArea b2 * 1.5 < boxArea b1 → ¬ boxArea b1 * 1.5 < boxArea b2 →
      boxArea b1 < boxArea b2 →
      dedupDetections [(b1, l1), (b2, l2)] = [(b2, l2)]) := by
  refine ⟨?_, ?_, ?_, ?_, ?_, ?_, ?_, ?_⟩
  · intro hiou harea
    refine dedupDet_pair_keepFirst b1 b2 l1 l2 ?_
    simp only [dedupDetInner, List.getD_cons_zero, List.getD_cons_succ]
    rw [if_neg (by decide)]
    rw [if_neg (not_not_intro hsim)]
    rw [if_pos hiou, if_pos harea]
    rfl
  · intro hiou harea
    refine dedupDet_pair_keepSecond b1 b2 l1 l2 ?_
    simp only [dedupDetInner, List.getD_cons_zero, List.getD_cons_succ]
    rw [if_neg (by decide)]
    rw [if_neg (not_not_intro hsim)]
    rw [if_pos hiou, if_neg (not_le.mpr harea)]
    rfl
  · intro hiou hcd harea
    refine dedupDet_pair_keepFirst b1 b2 l1 l2 ?_
    simp only [dedupDetInner, List.getD_cons_zero, List.getD_cons_succ]
    rw [if_neg (by decide)]
    rw [if_neg (not_not_intro hsim)]
    rw [if_neg hiou, if_pos hcd, if_pos harea]
    rfl
  · intro hiou hcd harea
    refine dedupDet_pair_keepSecond b1 b2 l1 l2 ?_
    simp only [dedupDetInner, List.getD_cons_zero, List.getD_cons_succ]
    rw [if_neg (by decide)]
    rw [if_neg (not_not_intro hsim)]
    rw [if_neg hiou, if_pos hcd, if_neg (not_le.mpr harea)]
    rfl
  · intro hiou hcd hcont hratio
    refine dedupDet_pair_keepSecond b1 b2 l1 l2 ?_
    simp only [dedupDetInner, List.getD_cons_zero, List.getD_cons_succ]
    rw [if_neg (by decide)]
    rw [if_neg (not_not_intro hsim)]
    rw [if_neg hiou, if_neg hcd, if_pos hcont, if_pos hratio]
    rfl
  · intro hiou hcd hcont hr1 hr2
    refine dedupDet_pair_keepFirst b1 b2 l1 l2 ?_
    simp only [dedupDetInner, List.getD_cons_zero, List.getD_cons_succ]
    rw [if_neg (by decide)]
    rw [if_neg (not_not_intro hsim)]
    rw [if_neg hiou, if_neg hcd, if_pos hcont, if_neg hr1, if_pos hr2]
    rfl
  · intro hiou hcd hcont hr1 hr2 harea
    refine dedupDet_pair_keepFirst b1 b2 l1 l2 ?_
    simp only [dedupDetInner, List.getD_cons_zero, List.getD_cons_succ]
    rw [if_neg (by decide)]
    rw [if_neg (not_not_intro hsim)]
    rw [if_neg hiou, if_neg hcd, if_pos hcont, if_neg hr1, if_neg hr2, if_pos harea]
    rfl
  · intro hiou hcd hcont hr1 hr2 harea
    refine dedupDet_pair_keepSecond b1 b2 l1 l2 ?_
    simp only [dedupDetInner, List.getD_cons_zero, List.getD_cons_succ]
    rw [if_neg (by decide)]
    rw [if_neg (not_not_intro hsim)]
    rw [if_neg hiou, if_neg hcd, if_pos hcont, if_neg hr1, if_neg hr2,
      if_neg (not_le.mpr harea)]
    rfl

end FoodVision

namespace FoodVision

/-- Claim C8 (amended): in the duplicate-suppression pass over a
two-detection batch with similar normalized labels, the IoU branch and
the close-centers branch keep the larger-area detection, and so does the
containment branch when neither area exceeds 1.5 times the other; but
when one box contains the other and one area exceeds 1.5 times the other
(the first-index direction checked first), the LARGER box is removed and
the SMALLER (more specific) detection is kept. -/
theorem detectionDedup_keep_spec (b1 b2 : Box ℝ) (l1 l2 : String)
    (hsim : labelsSimilar (normalizeLabelDet l1) (normalizeLabelDet l2)) :
    (0.2 < calculateIoU b1 b2 → boxArea b2 ≤ boxArea b1 →
      dedupDetections [(b1, l1), (b2, l2)] = [(b1, l1)]) ∧
    (0.2 < calculateIoU b1 b2 → boxArea b1 < boxArea b2 →
      dedupDetections [(b1, l1), (b2, l2)] = [(b2, l2)]) ∧
    (¬ 0.2 < calculateIoU b1 b2 →
      (centerDist b1 b2 < maxAvgSizeDet b1 b2 * 0.5 ∧ 0.6 < sizeRatio b1 b2) →
      boxArea b2 ≤ boxArea b1 →
      dedupDetections [(b1, l1), (b2, l2)] = [(b1, l1)]) ∧
    (¬ 0.2 < calculateIoU b1 b2 →
      (centerDist b1 b2 < maxAvgSizeDet b1 b2 * 0.5 ∧ 0.6 < sizeRatio b1 b2) →
      boxArea b1 < boxArea b2 →
      dedupDetections [(b1, l1), (b2, l2)] = [(b2, l2)]) ∧
    (¬ 0.2 < calculateIoU b1 b2 →
      ¬ (centerDist b1 b2 < maxAvgSizeDet b1 b2 * 0.5 ∧ 0.6 < sizeRatio b1 b2) →
      (boxContainsB b1 b2 ∨ boxContainsB b2 b1) →
      boxArea b2 * 1.5 < boxArea b1 →
      dedupDetections [(b1, l1), (b2, l2)] = [(b2, l2)]) ∧
    (¬ 0.2 < calculateIoU b1 b2 →
      ¬ (centerDist b1 b2 < maxAvgSizeDet b1 b2 * 0.5 ∧ 0.6 < sizeRatio b1 b2) →
      (boxContainsB b1 b2 ∨ boxContainsB b2 b1) →
      ¬ boxArea b2 * 1.5 < boxArea b1 → boxArea b1 * 1.5 < boxArea b2 →
      dedupDetections [(b1, l1), (b2, l2)] = [(b1, l1)]) ∧
    (¬ 0.2 < calculateIoU b1 b2 →
      ¬ (centerDist b1 b2 < maxAvgSizeDet b1 b2 * 0.5 ∧ 0.6 < sizeRatio b1 b2) →
      (boxContainsB b1 b2 ∨ boxContainsB b2 b1) →
      ¬ boxArea b2 * 1.5 < boxArea b1 → ¬ boxArea b1 * 1.5 < boxArea b2 →
      boxArea b2 ≤ boxArea b1 →
      dedupDetections [(b1, l1), (b2, l2)] = [(b1, l1)]) ∧
    (¬ 0.2 < calculateIoU b1 b2 →
      ¬ (centerDist b1 b2 < maxAvgSizeDet b1 b2 * 0.5 ∧ 0.6 < sizeRatio b1 b2) →
      (boxContainsB b1 b2 ∨ boxContainsB b2 b1) →
      ¬ boxArea b2 * 1.5 < boxArea b1 → ¬ boxArea b1 * 1.5 < boxArea b2 →
      boxArea b1 < boxArea b2 →
      dedupDetections [(b1, l1), (b2, l2)] = [(b2, l2)]) :=
  dedupDetections_pair_cases b1 b2 l1 l2 hsim

theorem detectionDedup_keep_spec_witness :
    dedupDetections [((⟨0, 0, 10, 10⟩ : Box ℝ), "apple"), (⟨0, 0, 10, 9⟩, "apples")]
      = [((⟨0, 0, 10, 10⟩ : Box ℝ), "apple")] :=
  (detectionDedup_keep_spec ⟨0, 0, 10, 10⟩ ⟨0, 0, 10, 9⟩ "apple" "apples"
    (by decide)).1
    (by norm_num [calculateIoU]) (by norm_num [boxArea])

/-- Claim C8 counterexample: a 100 x 100 "apple" box fully containing a
10 x 10 "apple" box (IoU 0.01, size ratio 0.01) triggers the containment
branch with area ratio above 1.5, and the pass keeps the smaller box and
removes the larger one, refuting the claim that the kept detection is
always the larger-area one. -/
theorem detectionDedup_larger_removed_counterexample :
    boxArea (⟨40, 40, 50, 50⟩ : Box ℝ) < boxArea ⟨0, 0, 100, 100⟩ ∧
    dedupDetections [((⟨0, 0, 100, 100⟩ : Box ℝ), "apple"), (⟨40, 40, 50, 50⟩, "apple")]
      = [((⟨40, 40, 50, 50⟩ : Box ℝ), "apple")] := by
  refine ⟨by norm_num [boxArea], ?_⟩
  refine (dedupDetections_pair_cases ⟨0, 0, 100, 100⟩ ⟨40, 40, 50, 50⟩
    "apple" "apple" (Or.inl rfl)).2.2.2.2.1 ?_ ?_ ?_ ?_
  · norm_num [calculateIoU]
  · intro h
    have h2 := h.2
    rw [show sizeRatio (⟨0, 0, 100, 100⟩ : Box ℝ) ⟨40, 40, 50, 50⟩ = 0.01 by
      norm_num [sizeRatio, boxArea]] at h2
    norm_num at h2
  · exact Or.inl (by norm_num [boxContainsB])
  · norm_num [boxArea]

end FoodVision

namespace FoodVision

/-- Claim C1 (code bug): the nutrition loop passes mass_g and quantity
keywords on every knowledge-base lookup, but
NutritionRAG.get_nutrition_for_food accepts only (food_name, volume_ml),
so under Python call semantics every lookup raises TypeError; the external
mass override asserted by the claim and by the repository unit tests is
never honored, and the lookup itself always derives mass as
volume_ml * density. -/
theorem nutritionOverride_typeError (searchResults : List SearchEntry)
    (label : String) (maxVolume : ℝ) (geminiGrams : Option ℝ) (quantity : Int) :
    analyzeNutritionItemMass searchResults label maxVolume geminiGrams quantity
      = Except.error
        "TypeError: get_nutrition_for_food() got an unexpected keyword argument" := by
  unfold analyzeNutritionItemMass
  rw [if_neg]
  intro h
  have := h "mass_g" (by decide)
  revert this
  decide

/-- Claim C9 (amended): every tracked object whose id has no volume
history still receives a results entry, flagged estimated, whose volume is
the external batch estimate when available and the deterministic
area_cm2 * 2.0 fallback otherwise; the entry reaches the nutrition loop
candidates exactly when its label matches no non-food skip keyword. -/
theorem emptyHistory_estimated_entry (est : Nat → Option ℝ) (ppc : ℝ)
    (tracked : List (Nat × TrackedFull)) (withVolume : List Nat)
    (objId : Nat) (obj : TrackedFull)
    (hmem : (objId, obj) ∈ tracked) (hnv : objId ∉ withVolume) :
    ∃ e ∈ compileUntracked est ppc tracked withVolume,
      e.obj_id = objId ∧ e.label = obj.label ∧ e.estimated = true ∧
      e.max_volume_ml = (est objId).getD (boxArea obj.box / ppc ^ 2 * 2) ∧
      (¬ skipMatch obj.label →
        e ∈ nutritionCandidates (compileUntracked est ppc tracked withVolume)) := by
  refine ⟨untrackedResultEntry est ppc objId obj, ?_, rfl, rfl, rfl, rfl, ?_⟩
  · unfold compileUntracked
    exact List.mem_map.mpr ⟨(objId, obj),
      List.mem_filter.mpr ⟨hmem, by simpa using hnv⟩, rfl⟩
  · intro hskip
    unfold nutritionCandidates
    refine List.mem_filter.mpr ⟨?_, ?_⟩
    · unfold compileUntracked
      exact List.mem_map.mpr ⟨(objId, obj),
        List.mem_filter.mpr ⟨hmem, by simpa using hnv⟩, rfl⟩
    · simpa using hskip

theorem emptyHistory_estimated_entry_witness :
    ∃ e ∈ compileUntracked (fun _ => none) 16
      [(1, (⟨⟨0, 0, 32, 32⟩, "rice", none, none⟩ : TrackedFull))] [],
      e.obj_id = 1 ∧
      e.label = (⟨⟨0, 0, 32, 32⟩, "rice", none, none⟩ : TrackedFull).label ∧
      e.estimated = true ∧
      e.max_volume_ml = ((fun _ => (none : Option ℝ)) 1).getD
        (boxArea (⟨⟨0, 0, 32, 32⟩, "rice", none, none⟩ : TrackedFull).box
          / (16 : ℝ) ^ 2 * 2) ∧
      (¬ skipMatch (⟨⟨0, 0, 32, 32⟩, "rice", none, none⟩ : TrackedFull).label →
        e ∈ nutritionCandidates (compileUntracked (fun _ => none) 16
          [(1, (⟨⟨0, 0, 32, 32⟩, "rice", none, none⟩ : TrackedFull))] [])) :=
  emptyHistory_estimated_entry (fun _ => none) 16
    [(1, ⟨⟨0, 0, 32, 32⟩, "rice", none, none⟩)] [] 1
    ⟨⟨0, 0, 32, 32⟩, "rice", none, none⟩
    (List.mem_singleton.mpr rfl) (by simp)

/-- Claim C9 counterexample: a tracked object labeled "bowl" with empty
volume history appears in the results with the estimated flag, but the
nutrition loop skips it (bowl is a non-food keyword), so it does not
appear in the nutrition summary as the claim states. -/
theorem nonfood_excluded_from_nutrition_counterexample :
    (∃ e ∈ compileUntracked (fun _ => none) 16
      [(1, (⟨⟨0, 0, 32, 32⟩, "bowl", none, none⟩ : TrackedFull))] [],
      e.estimated = true ∧ e.label = "bowl") ∧
    nutritionCandidates (compileUntracked (fun _ => none) 16
      [(1, (⟨⟨0, 0, 32, 32⟩, "bowl", none, none⟩ : TrackedFull))] []) = [] := by
  constructor
  · refine ⟨untrackedResultEntry (fun _ => none) 16 1
      ⟨⟨0, 0, 32, 32⟩, "bowl", none, none⟩, ?_, rfl, rfl⟩
    unfold compileUntracked
    exact List.mem_map.mpr ⟨(1, ⟨⟨0, 0, 32, 32⟩, "bowl", none, none⟩),
      List.mem_filter.mpr ⟨List.mem_singleton.mpr rfl, by simp⟩, rfl⟩
  · unfold nutritionCandidates compileUntracked
    rw [List.filter_cons, if_pos (by simp)]
    rw [List.filter_nil, List.map_cons, List.map_nil]
    rw [List.filter_cons, if_neg ?_, List.filter_nil]
    rw [decide_eq_true_eq]
    intro hcontra
    exact hcontra (by decide)

end FoodVision
